import Mathlib

/-!
Verification of the Cursor-controller scripts.

The four Python scripts (cursor-terminal-monitor.py, cursor-terminal-ocr.py,
cursor-window-monitor.py, cursor-gui.py) are shallowly embedded below.
Strings are modelled as lists of characters (`Str`); Python's `str.lower` is
modelled on the ASCII fragment by `Char.toLower` (the scripts only ever
compare ASCII pattern text).  Each `subprocess.run(['osascript', ...])` call
is modelled as a lookup in an oracle environment `Env`: the result is
`Option Str`, with `none` standing for a failed call (the `None` return of
`run_osascript`).  The regular-expression fragment used by the scripts
(literals, character classes, `.` with and without `re.DOTALL`, `*`, `?`)
is given a small verified matcher (`REmatch`/`research`) with a semantics
`RELang` proved equivalent to the matcher.
-/

/-- Python strings, modelled as lists of characters. -/
abbrev Str := List Char

/-- Literal string to `Str`. -/
def strC (s : String) : Str := s.data

/-- ASCII model of Python `str.lower` (the core `Char.toLower` lowers exactly
the basic latin letters, which is all the scripts' pattern text needs). -/
def lowerStr (t : Str) : Str := t.map Char.toLower

/-- Regular expressions, covering the fragment the scripts use:
character literals, character classes such as `[\s\-]` and `[\.)\-]`,
the wildcard `.` (with a flag for `re.DOTALL`), concatenation,
alternation, `*` and (via `RE.opt`) `?`. -/
inductive RE where
  | fail
  | eps
  | chr (c : Char)
  | cls (cs : List Char)
  | dot (dotall : Bool)
  | seq (r s : RE)
  | alt (r s : RE)
  | star (r : RE)

/-- The `?` postfix operator. -/
def RE.opt (r : RE) : RE := .alt r .eps

/-- Does the regular expression accept the empty string? -/
def nullable : RE → Bool
  | .fail => false
  | .eps => true
  | .chr _ => false
  | .cls _ => false
  | .dot _ => false
  | .seq r s => nullable r && nullable s
  | .alt r s => nullable r || nullable s
  | .star _ => true

/-- Brzozowski derivative of a regular expression by a character. -/
def rederiv : RE → Char → RE
  | .fail, _ => .fail
  | .eps, _ => .fail
  | .chr d, c => if c = d then .eps else .fail
  | .cls cs, c => if c ∈ cs then .eps else .fail
  | .dot da, c => if !da && c = '\n' then .fail else .eps
  | .seq r s, c =>
      if nullable r then .alt (.seq (rederiv r c) s) (rederiv s c) else .seq (rederiv r c) s
  | .alt r s, c => .alt (rederiv r c) (rederiv s c)
  | .star r, c => .seq (rederiv r c) (.star r)

/-- Whole-string matching via iterated derivatives. -/
def REmatch : RE → Str → Bool
  | r, [] => nullable r
  | r, c :: l => REmatch (rederiv r c) l

/-- `.` under `re.DOTALL`: any single character. -/
def anyRE : RE := .dot true

/-- Model of `re.search`: some substring of `t` matches `p`. -/
def research (p : RE) (t : Str) : Bool :=
  REmatch (.seq (.star anyRE) (.seq p (.star anyRE))) t

/-- The regular expression matching exactly one literal string. -/
def strRE : Str → RE
  | [] => .eps
  | c :: l => .seq (.chr c) (strRE l)

/-- Python's substring containment `needle in hay`, via the matcher. -/
def isSubStr (needle hay : Str) : Bool := research (strRE needle) hay

/-- A conservative check that every string accepted by `r` contains the
character `c`. -/
def mustContain (c : Char) : RE → Bool
  | .fail => true
  | .eps => false
  | .chr d => d = c
  | .cls _ => false
  | .dot _ => false
  | .seq r s => mustContain c r || mustContain c s
  | .alt r s => mustContain c r && mustContain c s
  | .star _ => false

/-- The characters every string accepted by `r` is forced to contain, in
order (a conservative scattered-subsequence lower bound). -/
def forced : RE → Str
  | .fail => []
  | .eps => []
  | .chr c => [c]
  | .cls _ => []
  | .dot _ => []
  | .seq r s => forced r ++ forced s
  | .alt _ _ => []
  | .star _ => []

/-! ### Python string, parsing, and container helpers -/

/-- Python `str.isdigit` (ASCII fragment): non-empty and all digits. -/
def pyIsdigit (l : Str) : Bool := !l.isEmpty && l.all Char.isDigit

/-- Numeric value of an all-digit string. -/
def digitsToNat (l : Str) : Nat := l.foldl (fun a c => a * 10 + (c.toNat - 48)) 0

/-- Strip surrounding whitespace, as Python `int` tolerates. -/
def pyStripWs (l : Str) : Str :=
  ((l.dropWhile Char.isWhitespace).reverse.dropWhile Char.isWhitespace).reverse

/-- Model of Python `int(str)`: `none` models a raised `ValueError`. -/
def pyInt (l : Str) : Option Int :=
  match pyStripWs l with
  | '-' :: rest => if pyIsdigit rest then some (-(digitsToNat rest : Int)) else none
  | '+' :: rest => if pyIsdigit rest then some ((digitsToNat rest : Int)) else none
  | t => if pyIsdigit t then some ((digitsToNat t : Int)) else none

/-- Python `s.split(", ")`, specialised to the two-character separator the
scripts use for AppleScript `position`/`size` results. -/
def splitCS : Str → List Str
  | ',' :: ' ' :: rest => [] :: splitCS rest
  | c :: rest =>
      match splitCS rest with
      | l :: ls => (c :: l) :: ls
      | [] => [[c]]
  | [] => [[]]

/-- Python `s.split('\n')`. -/
def splitLines : Str → List Str
  | [] => [[]]
  | c :: rest =>
      if c = '\n' then [] :: splitLines rest
      else
        match splitLines rest with
        | l :: ls => (c :: l) :: ls
        | [] => [[c]]

/-- Little-endian base-10 digits with structural fuel (kernel-evaluable). -/
def natDigitsAux : Nat → Nat → List Nat
  | 0, _ => []
  | fuel + 1, n => if n = 0 then [] else (n % 10) :: natDigitsAux fuel (n / 10)

/-- Little-endian base-10 digits of a natural number. -/
def natDigits (n : Nat) : List Nat := natDigitsAux n n

/-- Decimal rendering of a natural number, modelling Python `f"{n}"`. -/
def natToChars (n : Nat) : Str :=
  if n = 0 then ['0'] else (natDigits n).reverse.map Nat.digitChar

/-- Python `set.add` on a membership-based list model of a set of strings. -/
def insertStr (l : List Str) (k : Str) : List Str := if k ∈ l then l else l ++ [k]

/-- Python `set.add` on a membership-based list model of a set of indices. -/
def insertNat (l : List Nat) (i : Nat) : List Nat := if i ∈ l then l else l ++ [i]

/-- Python `result or default` on an osascript result (`None` and the empty
string are falsy). -/
def orDefault (o : Option Str) (d : Str) : Str :=
  match o with
  | some s => if s.isEmpty then d else s
  | none => d

/-! ### The osascript oracle -/

/-- The AppleScript queries the scripts issue, one constructor per script
template string. -/
inductive OsQuery where
  | isRunning
  | countWindows
  | windowTitle (i : Nat)
  | windowPosition (i : Nat)
  | windowSize (i : Nat)
  | windowMinimized (i : Nat)
  | entireContents (i : Nat)
deriving DecidableEq

/-- Oracle for the external world: osascript query results, per-window OCR
text, and whether the `screencapture` subprocess succeeds. -/
structure Env where
  osascript : OsQuery → Option Str
  ocrText : Nat → Str
  captureOk : Nat → Bool

/-- The externally visible actuation commands a script can issue. -/
inductive Act where
  | captureScreen (x y w h : Int)
  | focusClick (i : Nat)
  | keystroke (s : Str)
  | keyCode (n : Nat)
  | closeClick (i : Int)
  | setPosition (i : Int) (x y : Int)
  | setSize (i : Int) (w h : Int)
  | setMinimized (i : Int) (b : Bool)
  | askConfirm (i : Nat)
  | showDialog (s : Str)
deriving DecidableEq

deriving instance DecidableEq for Except

/-- Focus the window, type "2", press Return (key code 36): the common
autoresponse of `select_option_2` / `focus_and_select_option_2`. -/
def select2Actions (i : Nat) : List Act :=
  [.focusClick i, .keystroke (strC "2"), .keyCode 36]

/-! ### cursor-terminal-monitor.py -/

/-- A window record of `cursor-terminal-monitor.py`'s `get_cursor_windows`:
`{'index': i, 'title': title}`. -/
structure MonWindow where
  index : Nat
  title : Str
deriving DecidableEq

/-- Mutable state of `CursorTerminalMonitor.monitor_terminals`:
`self.claude4_windows` and the local `processed_menus`. -/
structure MonState where
  claude4_windows : List Nat
  processed_menus : List Str
deriving DecidableEq

namespace TermMon

/-- `get_cursor_windows` of cursor-terminal-monitor.py. -/
def get_cursor_windows (env : Env) : List MonWindow :=
  if env.osascript .isRunning ≠ some (strC "true") then []
  else
    match env.osascript .countWindows with
    | none => []
    | some cnt =>
        if !pyIsdigit cnt then []
        else (List.range' 1 (digitsToNat cnt)).map fun i =>
          { index := i, title := orDefault (env.osascript (.windowTitle i)) (strC "Unknown") }

/-- `get_window_ui_elements`: `entire contents` dump, empty string on a
falsy result. -/
def get_window_ui_elements (env : Env) (i : Nat) : Str :=
  match env.osascript (.entireContents i) with
  | some s => if s.isEmpty then [] else s
  | none => []

/-- The five `claude4_patterns` literals of cursor-terminal-monitor.py. -/
def claude4_patterns : List Str :=
  [strC "claude-4", strC "Claude 4", strC "claude 4", strC "CLAUDE-4", strC "Claude-4"]

/-- The per-text core of `check_for_claude4`: `pattern.lower() in
text.lower()` over the five patterns. -/
def text_matches_claude4 (t : Str) : Bool :=
  claude4_patterns.any fun p => isSubStr (lowerStr p) (lowerStr t)

/-- `check_for_claude4` of cursor-terminal-monitor.py: checks the window's
`entire contents`, then its title. -/
def check_for_claude4 (env : Env) (i : Nat) : Bool :=
  if text_matches_claude4 (get_window_ui_elements env i) then true
  else text_matches_claude4 (orDefault (env.osascript (.windowTitle i)) [])

/-- The `\s` class (ASCII fragment of Python's whitespace class). -/
def wsCls : RE := .cls [' ', '\t', '\n', '\r', '\x0b', '\x0c']

/-- The `[\.)\-]` class of the first option pattern. -/
def punctCls : RE := .cls ['.', ')', '-']

/-- Pattern `1\s*[\.)\-]\s*.*\n.*2\s*[\.)\-]\s*.*\n.*3\s*[\.)\-]`
(compiled with `re.IGNORECASE | re.DOTALL`). -/
def optPattern1 : RE :=
  .seq (.chr '1') (.seq (.star wsCls) (.seq punctCls (.seq (.star wsCls)
    (.seq (.star anyRE) (.seq (.chr '\n') (.seq (.star anyRE)
    (.seq (.chr '2') (.seq (.star wsCls) (.seq punctCls (.seq (.star wsCls)
    (.seq (.star anyRE) (.seq (.chr '\n') (.seq (.star anyRE)
    (.seq (.chr '3') (.seq (.star wsCls) punctCls)))))))))))))))

/-- Pattern `Select.*:\s*\n.*1.*\n.*2.*\n.*3` (IGNORECASE modelled by
matching the lowered literal against the lowered text; DOTALL). -/
def optPattern2 : RE :=
  .seq (strRE (strC "select")) (.seq (.star anyRE) (.seq (.chr ':')
    (.seq (.star wsCls) (.seq (.chr '\n') (.seq (.star anyRE) (.seq (.chr '1')
    (.seq (.star anyRE) (.seq (.chr '\n') (.seq (.star anyRE) (.seq (.chr '2')
    (.seq (.star anyRE) (.seq (.chr '\n') (.seq (.star anyRE) (.chr '3'))))))))))))))

/-- Pattern `\[1\].*\[2\].*\[3\]` (DOTALL). -/
def optPattern3 : RE :=
  .seq (strRE (strC "[1]")) (.seq (.star anyRE)
    (.seq (strRE (strC "[2]")) (.seq (.star anyRE) (strRE (strC "[3]")))))

/-- Pattern `Option 1.*Option 2.*Option 3` (IGNORECASE via lowering; DOTALL). -/
def optPattern4 : RE :=
  .seq (strRE (strC "option 1")) (.seq (.star anyRE)
    (.seq (strRE (strC "option 2")) (.seq (.star anyRE) (strRE (strC "option 3")))))

/-- The `option_patterns` list of cursor-terminal-monitor.py. -/
def option_patterns : List RE := [optPattern1, optPattern2, optPattern3, optPattern4]

/-- The per-text core of `check_for_options_menu`: `re.search(pattern,
content, re.IGNORECASE | re.DOTALL)` over the four patterns. -/
def text_matches_options_menu (t : Str) : Bool :=
  option_patterns.any fun p => research p (lowerStr t)

/-- `check_for_options_menu` of cursor-terminal-monitor.py. -/
def check_for_options_menu (env : Env) (i : Nat) : Bool :=
  text_matches_options_menu (get_window_ui_elements env i)

/-- The `f"{index}_{title}"` window key of `monitor_terminals`. -/
def window_key (i : Nat) (title : Str) : Str := natToChars i ++ '_' :: title

/-- The body of the `for window in windows` loop of `monitor_terminals`,
for one window. -/
def processWindow (env : Env) (st : MonState) (w : MonWindow) : MonState × List Act :=
  let has_claude4 := check_for_claude4 env w.index
  let st1 :=
    if has_claude4 = true ∧ w.index ∉ st.claude4_windows then
      { st with claude4_windows := insertNat st.claude4_windows w.index }
    else st
  if has_claude4 = true ∨ w.index ∈ st1.claude4_windows then
    let key := window_key w.index w.title
    if check_for_options_menu env w.index = true ∧ key ∉ st1.processed_menus then
      ({ st1 with processed_menus := insertStr st1.processed_menus key }, select2Actions w.index)
    else (st1, [])
  else (st1, [])

/-- One iteration of the `while self.monitoring` loop of
`monitor_terminals`: process every window, then prune `processed_menus`
to the keys of the current windows. -/
def monitor_terminals_cycle (env : Env) (st : MonState) : MonState × List Act :=
  let windows := get_cursor_windows env
  let folded := windows.foldl
    (fun (acc : MonState × List Act) w =>
      let r := processWindow env acc.1 w
      (r.1, acc.2 ++ r.2))
    (st, [])
  let current_window_keys := windows.map fun w => window_key w.index w.title
  ({ folded.1 with
      processed_menus := folded.1.processed_menus.filter fun k =>
        decide (k ∈ current_window_keys) },
    folded.2)

end TermMon

/-! ### cursor-terminal-ocr.py -/

/-- A window record of cursor-terminal-ocr.py's `get_cursor_windows`:
index, title, optional position and size, minimized flag. -/
structure OcrWindow where
  index : Nat
  title : Str
  x : Option Int := none
  y : Option Int := none
  width : Option Int := none
  height : Option Int := none
  minimized : Bool := false
deriving DecidableEq

/-- Mutable state of `CursorTerminalOCR`: `self.claude4_windows` and
`self.processed_selections`. -/
structure OcrState where
  claude4_windows : List Nat
  processed_selections : List Str
deriving DecidableEq

namespace TermOCR

/-- Parse an AppleScript pair result via `map(int, s.split(", "))` with
two-element unpacking; `none` models the raised exception. -/
def parsePair (s : Str) : Option (Int × Int) :=
  match splitCS s with
  | [a, b] =>
      match pyInt a, pyInt b with
      | some x, some y => some (x, y)
      | _, _ => none
  | _ => none

/-- Parse one optional pair field (`position` or `size`): a falsy result
leaves the fields absent; a malformed result is an uncaught exception. -/
def optField (o : Option Str) : Option (Option Int × Option Int) :=
  match o with
  | some s =>
      if s.isEmpty then some (none, none)
      else
        match parsePair s with
        | some (a, b) => some (some a, some b)
        | none => none
  | none => some (none, none)

/-- Build one window record of `get_cursor_windows`; `none` models an
uncaught parse exception. -/
def buildWindow (env : Env) (i : Nat) : Option OcrWindow :=
  match optField (env.osascript (.windowPosition i)), optField (env.osascript (.windowSize i)) with
  | some pos, some siz =>
      some { index := i,
             title := orDefault (env.osascript (.windowTitle i)) (strC "Unknown"),
             x := pos.1, y := pos.2, width := siz.1, height := siz.2,
             minimized := decide (env.osascript (.windowMinimized i) = some (strC "true")) }
  | _, _ => none

/-- One iteration of the `for i in range(1, window_count + 1)` loop of the
OCR script's `get_cursor_windows`: build the window, append it unless it is
minimized, propagate an exception. -/
def enumStep (env : Env) (acc : Option (List OcrWindow)) (i : Nat) : Option (List OcrWindow) :=
  match acc, buildWindow env i with
  | some ws, some w => some (if w.minimized then ws else ws ++ [w])
  | _, _ => none

/-- `get_cursor_windows` of cursor-terminal-ocr.py: enumerate windows,
appending only those not reported minimized; `none` models an uncaught
parse exception. -/
def get_cursor_windows (env : Env) : Option (List OcrWindow) :=
  if env.osascript .isRunning ≠ some (strC "true") then some []
  else
    match env.osascript .countWindows with
    | none => some []
    | some cnt =>
        if !pyIsdigit cnt then some []
        else (List.range' 1 (digitsToNat cnt)).foldl (enumStep env) (some [])

/-- The lowered `claude[\s\-]?4` pattern (IGNORECASE via lowering). -/
def claudeRE : RE :=
  .seq (strRE (strC "claude")) (.seq (RE.opt (.cls [' ', '\t', '\n', '\r', '\x0b', '\x0c', '-'])) (.chr '4'))

/-- The lowered `opus[\s\-]?4` pattern (IGNORECASE via lowering). -/
def opusRE : RE :=
  .seq (strRE (strC "opus")) (.seq (RE.opt (.cls [' ', '\t', '\n', '\r', '\x0b', '\x0c', '-'])) (.chr '4'))

/-- The five `claude4_patterns` of cursor-terminal-ocr.py, lowered (the
three claude casings collapse, as do the two opus casings). -/
def claude4_patterns : List RE := [claudeRE, claudeRE, claudeRE, opusRE, opusRE]

/-- `check_for_claude4` of cursor-terminal-ocr.py: `re.search(p, text,
re.IGNORECASE)` over the five patterns. -/
def check_for_claude4 (text : Str) : Bool :=
  claude4_patterns.any fun p => research p (lowerStr text)

/-- The `menu_patterns` confirmation patterns, matched against
`text.lower()` (no DOTALL: `.` does not cross lines). -/
def menu_patterns : List RE :=
  [strRE (strC "select"), strRE (strC "choose"), strRE (strC "option"),
   strRE (strC "choice"), strRE (strC "pick"),
   .seq (strRE (strC "which")) (.seq (.star (.dot false)) (strRE (strC "model"))),
   .seq (strRE (strC "available")) (.seq (.star (.dot false)) (strRE (strC "models")))]

/-- The fallback `1.*2.*3` pattern with `re.DOTALL`. -/
def oneTwoThreeRE : RE :=
  .seq (.chr '1') (.seq (.star anyRE) (.seq (.chr '2') (.seq (.star anyRE) (.chr '3'))))

/-- `check_for_options_menu` of cursor-terminal-ocr.py. -/
def check_for_options_menu (text : Str) : Bool :=
  let lines := splitLines text
  let has1 := lines.any fun l => decide ('1' ∈ l)
  let has2 := lines.any fun l => decide ('2' ∈ l)
  let has3 := lines.any fun l => decide ('3' ∈ l)
  if has1 && has2 && has3 then
    if menu_patterns.any (fun p => research p (lowerStr text)) then true
    else research oneTwoThreeRE text
  else false

/-- The `f"{index}_{title}_{len(text)}"` window key of `monitor_with_ocr`. -/
def window_key (i : Nat) (title : Str) (textLen : Nat) : Str :=
  natToChars i ++ '_' :: (title ++ '_' :: natToChars textLen)

/-- The body of the `for window in windows` loop of `monitor_with_ocr`, for
one window: size gate, capture, OCR, trigger and menu checks, autoresponse.
The surrounding `try/except` swallows a capture failure. -/
def ocrWindowStep (env : Env) (st : OcrState) (w : OcrWindow) : OcrState × List Act :=
  if w.width.getD 0 < 200 ∨ w.height.getD 0 < 100 then (st, [])
  else
    let cap := Act.captureScreen (w.x.getD 0) (w.y.getD 0) (w.width.getD 800) (w.height.getD 600)
    if env.captureOk w.index = false then (st, [cap])
    else
      let text := env.ocrText w.index
      if check_for_claude4 text = true then
        let st1 := { st with claude4_windows := insertNat st.claude4_windows w.index }
        let key := window_key w.index w.title text.length
        if check_for_options_menu text = true ∧ key ∉ st1.processed_selections then
          ({ st1 with processed_selections := insertStr st1.processed_selections key },
           cap :: select2Actions w.index)
        else (st1, [cap])
      else (st, [cap])

/-- One iteration of the `while self.monitoring` loop of `monitor_with_ocr`
(note: `processed_selections` is never pruned). -/
def monitor_with_ocr_cycle (env : Env) (st : OcrState) : Option (OcrState × List Act) :=
  (get_cursor_windows env).map fun ws =>
    ws.foldl
      (fun (acc : OcrState × List Act) w =>
        let r := ocrWindowStep env acc.1 w
        (r.1, acc.2 ++ r.2))
      (st, [])

end TermOCR

/-! ### cursor-window-monitor.py (CLI) -/

namespace WinMon

/-- `close_window`: click button 1 of the window, with no confirmation. -/
def close_window (i : Int) : List Act := [.closeClick i]

/-- `move_window`. -/
def move_window (i x y : Int) : List Act := [.setPosition i x y]

/-- `resize_window`. -/
def resize_window (i w h : Int) : List Act := [.setSize i w h]

/-- `focus_window`. -/
def focus_window (i : Int) : List Act := [.focusClick i.toNat]

/-- `minimize_window`. -/
def minimize_window (i : Int) : List Act := [.setMinimized i true]

/-- `unminimize_window`. -/
def unminimize_window (i : Int) : List Act := [.setMinimized i false]

/-- The command dispatch of `main()` in cursor-window-monitor.py, over the
full `sys.argv` (element 0 is the program name).  `Except.error` models an
uncaught exception escaping `main` (Python `int` raising `ValueError`);
commands that only print or enumerate yield no actuation actions. -/
def main (argv : List Str) : Except Str (List Act) :=
  if argv.length < 2 then .ok []
  else
    let command := lowerStr (argv.getD 1 [])
    if command = strC "list" then .ok []
    else if command = strC "monitor" then
      if argv.length > 2 then
        match pyInt (argv.getD 2 []) with
        | some _ => .ok []
        | none => .error (strC "ValueError")
      else .ok []
    else if command = strC "focus" ∧ argv.length > 2 then
      match pyInt (argv.getD 2 []) with
      | some i => .ok (focus_window i)
      | none => .error (strC "ValueError")
    else if command = strC "minimize" ∧ argv.length > 2 then
      match pyInt (argv.getD 2 []) with
      | some i => .ok (minimize_window i)
      | none => .error (strC "ValueError")
    else if command = strC "unminimize" ∧ argv.length > 2 then
      match pyInt (argv.getD 2 []) with
      | some i => .ok (unminimize_window i)
      | none => .error (strC "ValueError")
    else if command = strC "close" ∧ argv.length > 2 then
      match pyInt (argv.getD 2 []) with
      | some i => .ok (close_window i)
      | none => .error (strC "ValueError")
    else if command = strC "move" ∧ argv.length > 4 then
      match pyInt (argv.getD 2 []), pyInt (argv.getD 3 []), pyInt (argv.getD 4 []) with
      | some i, some x, some y => .ok (move_window i x y)
      | _, _, _ => .error (strC "ValueError")
    else if command = strC "resize" ∧ argv.length > 4 then
      match pyInt (argv.getD 2 []), pyInt (argv.getD 3 []), pyInt (argv.getD 4 []) with
      | some i, some w, some h => .ok (resize_window i w h)
      | _, _, _ => .error (strC "ValueError")
    else .ok []

end WinMon

/-! ### cursor-gui.py -/

namespace Gui

/-- `close_window` of cursor-gui.py, given the result of
`get_selected_window_index` and the user's answer to the
`messagebox.askyesno` confirmation. -/
def close_window (sel : Option Nat) (answer : Bool) : List Act :=
  match sel with
  | none => []
  | some i =>
      if i ≠ 0 then
        if answer then [.askConfirm i, .closeClick (i : Int)] else [.askConfirm i]
      else []

/-- `move_window` of cursor-gui.py: parse the X/Y entries with `int`; a
`ValueError` is caught and surfaced as an error dialog. -/
def move_window (sel : Option Nat) (xEntry yEntry : Str) : List Act :=
  match sel with
  | none => []
  | some i =>
      if i ≠ 0 then
        match pyInt xEntry, pyInt yEntry with
        | some x, some y => [.setPosition (i : Int) x y]
        | _, _ => [.showDialog (strC "Invalid Input")]
      else []

/-- `resize_window` of cursor-gui.py: parse the W/H entries with `int`; a
`ValueError` is caught and surfaced as an error dialog. -/
def resize_window (sel : Option Nat) (wEntry hEntry : Str) : List Act :=
  match sel with
  | none => []
  | some i =>
      if i ≠ 0 then
        match pyInt wEntry, pyInt hEntry with
        | some w, some h => [.setSize (i : Int) w h]
        | _, _ => [.showDialog (strC "Invalid Input")]
      else []

end Gui

/-! ### Concrete oracles used as witnesses -/

/-- One window titled "T" whose accessibility contents and OCR text show the
trigger phrase and a menu. -/
def envMenu1 : Env :=
  { osascript := fun q =>
      match q with
      | .isRunning => some (strC "true")
      | .countWindows => some (strC "1")
      | .windowTitle 1 => some (strC "T")
      | .windowPosition 1 => some (strC "10, 20")
      | .windowSize 1 => some (strC "800, 600")
      | .windowMinimized 1 => some (strC "false")
      | .entireContents 1 => some (strC "claude-4 select:\n1\n2\n3")
      | _ => none,
    ocrText := fun _ => strC "claude-4 select:\n1\n2\n3 A",
    captureOk := fun _ => true }

/-- Same window as `envMenu1`, but the displayed content has changed (same
title, different text of the same length). -/
def envMenu2 : Env :=
  { osascript := fun q =>
      match q with
      | .isRunning => some (strC "true")
      | .countWindows => some (strC "1")
      | .windowTitle 1 => some (strC "T")
      | .windowPosition 1 => some (strC "10, 20")
      | .windowSize 1 => some (strC "800, 600")
      | .windowMinimized 1 => some (strC "false")
      | .entireContents 1 => some (strC "claude-4 select now:\n1\n2\n3")
      | _ => none,
    ocrText := fun _ => strC "claude-4 select:\n1\n2\n3 B",
    captureOk := fun _ => true }

/-- The target application is not running. -/
def envStopped : Env :=
  { osascript := fun _ => some (strC "false"),
    ocrText := fun _ => [],
    captureOk := fun _ => true }

/-- The minimized query fails for every window; the single window is
otherwise fully reported. -/
def envMinFail : Env :=
  { osascript := fun q =>
      match q with
      | .isRunning => some (strC "true")
      | .countWindows => some (strC "1")
      | .windowTitle 1 => some (strC "T")
      | .windowPosition 1 => some (strC "10, 20")
      | .windowSize 1 => some (strC "800, 600")
      | _ => none,
    ocrText := fun _ => [],
    captureOk := fun _ => true }

/-- OCR text shows a menu but no trigger phrase; accessibility queries fail. -/
def envOcrMenuNoTrig : Env :=
  { osascript := fun _ => none,
    ocrText := fun _ => strC "please select:\n1\n2\n3",
    captureOk := fun _ => true }

/-- Accessibility contents show a menu but no trigger phrase. -/
def envMonNoTrig : Env :=
  { osascript := fun q =>
      match q with
      | .isRunning => some (strC "true")
      | .countWindows => some (strC "1")
      | .windowTitle 1 => some (strC "T")
      | .entireContents 1 => some (strC "select:\n1\n2\n3")
      | _ => none,
    ocrText := fun _ => [],
    captureOk := fun _ => true }

/-- Language semantics of the regular expressions. -/
inductive RELang : RE → Str → Prop where
  | eps : RELang .eps []
  | chr (c : Char) : RELang (.chr c) [c]
  | cls {c : Char} {cs : List Char} : c ∈ cs → RELang (.cls cs) [c]
  | dotall (c : Char) : RELang (.dot true) [c]
  | dotnl {c : Char} : c ≠ '\n' → RELang (.dot false) [c]
  | seq {r s : RE} {l1 l2 : Str} : RELang r l1 → RELang s l2 → RELang (.seq r s) (l1 ++ l2)
  | altl {r s : RE} {l : Str} : RELang r l → RELang (.alt r s) l
  | altr {r s : RE} {l : Str} : RELang s l → RELang (.alt r s) l
  | starnil (r : RE) : RELang (.star r) []
  | starcons {r : RE} {l1 l2 : Str} :
      RELang r l1 → RELang (.star r) l2 → RELang (.star r) (l1 ++ l2)

/-! ## Theorems -/

theorem RELang.nullable_of_nil {r : RE} {l : Str} (h : RELang r l) (hl : l = []) :
    nullable r = true := by
  induction h with
  | eps => rfl
  | chr c => simp at hl
  | cls _ => simp at hl
  | dotall c => simp at hl
  | dotnl _ => simp at hl
  | seq h1 h2 ih1 ih2 =>
    rcases List.append_eq_nil.mp hl with ⟨e1, e2⟩
    simp [nullable, ih1 e1, ih2 e2]
  | altl h ih => simp [nullable, ih hl]
  | altr h ih => simp [nullable, ih hl]
  | starnil r => rfl
  | starcons h1 h2 ih1 ih2 => rfl

theorem nullable_iff {r : RE} : nullable r = true ↔ RELang r [] := by
  constructor
  · intro h
    induction r with
    | fail => simp [nullable] at h
    | eps => exact .eps
    | chr c => simp [nullable] at h
    | cls cs => simp [nullable] at h
    | dot da => simp [nullable] at h
    | seq r s ihr ihs =>
      simp only [nullable, Bool.and_eq_true] at h
      exact (RELang.seq (ihr h.1) (ihs h.2) : RELang (.seq r s) ([] ++ []))
    | alt r s ihr ihs =>
      simp only [nullable, Bool.or_eq_true] at h
      rcases h with h | h
      · exact .altl (ihr h)
      · exact .altr (ihs h)
    | star r ih => exact .starnil r
  · intro h
    exact h.nullable_of_nil rfl

theorem deriv_sound {c : Char} : ∀ {r : RE} {l : Str}, RELang (rederiv r c) l → RELang r (c :: l) := by
  intro r
  induction r with
  | fail => intro l h; simp only [rederiv] at h; cases h
  | eps => intro l h; simp only [rederiv] at h; cases h
  | chr d =>
    intro l h
    simp only [rederiv] at h
    by_cases hc : c = d
    · rw [if_pos hc] at h
      cases h
      subst hc
      exact .chr c
    · rw [if_neg hc] at h
      cases h
  | cls cs =>
    intro l h
    simp only [rederiv] at h
    by_cases hc : c ∈ cs
    · rw [if_pos hc] at h
      cases h
      exact .cls hc
    · rw [if_neg hc] at h
      cases h
  | dot da =>
    intro l h
    simp only [rederiv] at h
    by_cases hc : (!da && c = '\n') = true
    · rw [if_pos hc] at h
      cases h
    · rw [if_neg hc] at h
      cases h
      cases da
      · simp only [Bool.not_false, Bool.true_and, decide_eq_true_eq] at hc
        exact .dotnl hc
      · exact .dotall c
  | seq r s ihr ihs =>
    intro l h
    simp only [rederiv] at h
    by_cases hn : nullable r = true
    · rw [if_pos hn] at h
      cases h with
      | altl h =>
        cases h with
        | seq h1 h2 => exact (RELang.seq (ihr h1) h2 : RELang (.seq r s) ((c :: _) ++ _))
      | altr h =>
        have h0 : RELang r [] := nullable_iff.mp hn
        exact (RELang.seq h0 (ihs h) : RELang (.seq r s) ([] ++ (c :: _)))
    · rw [if_neg hn] at h
      cases h with
      | seq h1 h2 => exact (RELang.seq (ihr h1) h2 : RELang (.seq r s) ((c :: _) ++ _))
  | alt r s ihr ihs =>
    intro l h
    simp only [rederiv] at h
    cases h with
    | altl h => exact .altl (ihr h)
    | altr h => exact .altr (ihs h)
  | star r ih =>
    intro l h
    simp only [rederiv] at h
    cases h with
    | seq h1 h2 => exact (RELang.starcons (ih h1) h2 : RELang (.star r) ((c :: _) ++ _))

theorem deriv_complete {r : RE} {m : Str} (h : RELang r m) :
    ∀ {c : Char} {l : Str}, m = c :: l → RELang (rederiv r c) l := by
  induction h with
  | eps => intro c l hm; simp at hm
  | chr d =>
    intro c l hm
    cases hm
    simp only [rederiv, if_pos rfl]
    exact .eps
  | cls hmem =>
    intro c l hm
    cases hm
    simp only [rederiv, if_pos hmem]
    exact .eps
  | dotall d =>
    intro c l hm
    cases hm
    simp only [rederiv, Bool.not_true, Bool.false_and, Bool.false_eq_true, if_false]
    exact .eps
  | dotnl hne =>
    intro c l hm
    cases hm
    simp only [rederiv, Bool.not_false, Bool.true_and]
    rw [if_neg (by simpa using hne)]
    exact .eps
  | seq h1 h2 ih1 ih2 =>
    intro c l hm
    rename_i r s l1 l2
    cases l1 with
    | nil =>
      simp only [List.nil_append] at hm
      have hn : nullable r = true := h1.nullable_of_nil rfl
      simp only [rederiv, if_pos hn]
      exact .altr (ih2 hm)
    | cons a l1' =>
      simp only [List.cons_append, List.cons.injEq] at hm
      rcases hm with ⟨ha, hl⟩
      subst ha
      subst hl
      by_cases hn : nullable r = true
      · simp only [rederiv, if_pos hn]
        exact .altl (.seq (ih1 rfl) h2)
      · simp only [rederiv, if_neg hn]
        exact .seq (ih1 rfl) h2
  | altl h ih =>
    intro c l hm
    exact .altl (ih hm)
  | altr h ih =>
    intro c l hm
    exact .altr (ih hm)
  | starnil r => intro c l hm; simp at hm
  | starcons h1 h2 ih1 ih2 =>
    intro c l hm
    rename_i r l1 l2
    cases l1 with
    | nil =>
      simp only [List.nil_append] at hm
      exact ih2 hm
    | cons a l1' =>
      simp only [List.cons_append, List.cons.injEq] at hm
      rcases hm with ⟨ha, hl⟩
      subst ha
      subst hl
      simp only [rederiv]
      exact .seq (ih1 rfl) h2

theorem REmatch_iff : ∀ {l : Str} {r : RE}, REmatch r l = true ↔ RELang r l := by
  intro l
  induction l with
  | nil => intro r; simpa [REmatch] using nullable_iff
  | cons c l ih =>
    intro r
    constructor
    · intro h
      exact deriv_sound (ih.mp h)
    · intro h
      exact ih.mpr (deriv_complete h rfl)

theorem RELang.star_any (l : Str) : RELang (.star anyRE) l := by
  induction l with
  | nil => exact .starnil anyRE
  | cons c l ih => exact (RELang.starcons (RELang.dotall c) ih : RELang (.star anyRE) ([c] ++ l))

theorem research_iff {p : RE} {t : Str} :
    research p t = true ↔ ∃ a m b, t = a ++ m ++ b ∧ RELang p m := by
  unfold research
  rw [REmatch_iff]
  constructor
  · intro h
    cases h with
    | seq ha hrest =>
      cases hrest with
      | seq hm hb =>
        exact ⟨_, _, _, (List.append_assoc _ _ _).symm, hm⟩
  · rintro ⟨a, m, b, rfl, hm⟩
    rw [List.append_assoc]
    exact .seq (RELang.star_any a) (.seq hm (RELang.star_any b))

theorem RELang.strRE_self : ∀ s : Str, RELang (strRE s) s := by
  intro s
  induction s with
  | nil => exact .eps
  | cons c s ih => exact (RELang.seq (RELang.chr c) ih : RELang (strRE (c :: s)) ([c] ++ s))

theorem mustContain_mem {c : Char} : ∀ {r : RE} {l : Str},
    RELang r l → mustContain c r = true → c ∈ l := by
  intro r l h
  induction h with
  | eps => intro h; simp [mustContain] at h
  | chr d =>
    intro h
    simp only [mustContain, decide_eq_true_eq] at h
    simp [h]
  | cls _ => intro h; simp [mustContain] at h
  | dotall _ => intro h; simp [mustContain] at h
  | dotnl _ => intro h; simp [mustContain] at h
  | seq h1 h2 ih1 ih2 =>
    intro h
    simp only [mustContain, Bool.or_eq_true] at h
    rcases h with h | h
    · exact List.mem_append_left _ (ih1 h)
    · exact List.mem_append_right _ (ih2 h)
  | altl h ih =>
    intro hmc
    simp only [mustContain, Bool.and_eq_true] at hmc
    exact ih hmc.1
  | altr h ih =>
    intro hmc
    simp only [mustContain, Bool.and_eq_true] at hmc
    exact ih hmc.2
  | starnil _ => intro h; simp [mustContain] at h
  | starcons _ _ _ _ => intro h; simp [mustContain] at h

theorem research_eq_false_of_notMem {p : RE} {t : Str} {c : Char}
    (hp : mustContain c p = true) (hc : c ∉ t) : research p t = false := by
  cases hres : research p t
  · rfl
  · exfalso
    rcases research_iff.mp hres with ⟨a, m, b, rfl, hm⟩
    exact hc (List.mem_append_left _ (List.mem_append_right _ (mustContain_mem hm hp)))

theorem forced_sublist {r : RE} {l : Str} (h : RELang r l) : List.Sublist (forced r) l := by
  induction h with
  | eps => exact List.Sublist.refl _
  | chr c => exact List.Sublist.refl _
  | cls _ => exact List.nil_sublist _
  | dotall _ => exact List.nil_sublist _
  | dotnl _ => exact List.nil_sublist _
  | seq h1 h2 ih1 ih2 => exact ih1.append ih2
  | altl h ih => exact List.nil_sublist _
  | altr h ih => exact List.nil_sublist _
  | starnil _ => exact List.Sublist.refl _
  | starcons h1 h2 ih1 ih2 => exact List.nil_sublist _

/-! ### Character and string helper lemmas -/

theorem Char_toNat_ofNat_valid {n : Nat} (h : n < 0xd800) : (Char.ofNat n).toNat = n := by
  have hv : n.isValidChar := Or.inl h
  rw [Char.ofNat, dif_pos hv]
  rfl

theorem toLower_eq_low {c t : Char} (ht : t.toNat < 97) (h : c.toLower = t) : c = t := by
  by_cases hc : c.toNat ≥ 65 ∧ c.toNat ≤ 90
  · exfalso
    have h2 : Char.ofNat (c.toNat + 32) = t := by
      rw [Char.toLower] at h
      simpa [hc] using h
    have hval : (Char.toNat c + 32) < 0xd800 := by omega
    have := congrArg Char.toNat h2
    rw [Char_toNat_ofNat_valid hval] at this
    omega
  · rw [Char.toLower] at h
    simpa [hc] using h

theorem notMem_lowerStr {t : Str} {d : Char} (hd : d.toNat < 97) (h : d ∉ t) :
    d ∉ lowerStr t := by
  intro hmem
  rcases List.mem_map.mp hmem with ⟨c, hc, hlow⟩
  exact h (toLower_eq_low hd hlow ▸ hc)

theorem lowerStr_append (a b : Str) : lowerStr (a ++ b) = lowerStr a ++ lowerStr b :=
  List.map_append _ a b

theorem mem_splitLines_of_mem {c : Char} :
    ∀ {t : Str}, c ∈ t → c ≠ '\n' → ∃ l ∈ splitLines t, c ∈ l := by
  intro t
  induction t with
  | nil => intro h; simp at h
  | cons x rest ih =>
    intro hmem hne
    by_cases hx : x = '\n'
    · have hcr : c ∈ rest := by
        rcases List.mem_cons.mp hmem with h | h
        · exact absurd (h.trans hx) hne
        · exact h
      rcases ih hcr hne with ⟨l, hl, hcl⟩
      exact ⟨l, by simp [splitLines, hx, hl], hcl⟩
    · rcases List.mem_cons.mp hmem with h | h
      · subst h
        cases hrec : splitLines rest with
        | nil => exact ⟨[c], by simp [splitLines, hx, hrec], by simp⟩
        | cons l ls => exact ⟨c :: l, by simp [splitLines, hx, hrec], by simp⟩
      · rcases ih h hne with ⟨l, hl, hcl⟩
        cases hrec : splitLines rest with
        | nil => simp [hrec] at hl
        | cons l0 ls =>
          rw [hrec] at hl
          rcases List.mem_cons.mp hl with he | he
          · exact ⟨x :: l0, by simp [splitLines, hx, hrec], by simp [he ▸ hcl]⟩
          · exact ⟨l, by simp [splitLines, hx, hrec, he], hcl⟩

theorem mem_of_mem_splitLines {c : Char} :
    ∀ {t l : Str}, l ∈ splitLines t → c ∈ l → c ∈ t := by
  intro t
  induction t with
  | nil =>
    intro l hl hc
    simp [splitLines] at hl
    simp [hl] at hc
  | cons x rest ih =>
    intro l hl hc
    by_cases hx : x = '\n'
    · simp only [splitLines, if_pos hx] at hl
      rcases List.mem_cons.mp hl with he | he
      · simp [he] at hc
      · exact List.mem_cons_of_mem _ (ih he hc)
    · simp only [splitLines, if_neg hx] at hl
      cases hrec : splitLines rest with
      | nil =>
        rw [hrec] at hl
        simp only [List.mem_singleton] at hl
        rw [hl] at hc
        have hcx := List.mem_singleton.mp hc
        simp [hcx]
      | cons l0 ls =>
        rw [hrec] at hl
        rcases List.mem_cons.mp hl with he | he
        · subst he
          rcases List.mem_cons.mp hc with he2 | he2
          · simp [he2]
          · exact List.mem_cons_of_mem _ (ih (by simp [hrec]) he2)
        · exact List.mem_cons_of_mem _ (ih (by simp [hrec, he]) hc)

/-! ### Decimal rendering: injectivity -/

theorem digitChar_inj_lt : ∀ a < 10, ∀ b < 10, Nat.digitChar a = Nat.digitChar b → a = b := by
  decide

theorem natDigitsAux_eq_digits : ∀ fuel n, n ≤ fuel → natDigitsAux fuel n = Nat.digits 10 n := by
  intro fuel
  induction fuel with
  | zero =>
    intro n hn
    interval_cases n
    simp [natDigitsAux]
  | succ f ih =>
    intro n hn
    by_cases h0 : n = 0
    · simp [natDigitsAux, h0]
    · have hpos : 0 < n := Nat.pos_of_ne_zero h0
      rw [natDigitsAux, if_neg h0, Nat.digits_def' (by norm_num : (1 : ℕ) < 10) hpos]
      have : n / 10 ≤ f := by
        have := Nat.div_lt_self hpos (by norm_num : (1 : ℕ) < 10)
        omega
      rw [ih _ this]

theorem natDigits_eq (n : Nat) : natDigits n = Nat.digits 10 n :=
  natDigitsAux_eq_digits n n le_rfl

theorem map_digitChar_inj :
    ∀ {l1 l2 : List Nat}, (∀ x ∈ l1, x < 10) → (∀ x ∈ l2, x < 10) →
      l1.map Nat.digitChar = l2.map Nat.digitChar → l1 = l2 := by
  intro l1
  induction l1 with
  | nil =>
    intro l2 _ _ h
    cases l2 with
    | nil => rfl
    | cons b l2 => simp at h
  | cons a l1 ih =>
    intro l2 hb1 hb2 h
    cases l2 with
    | nil => simp at h
    | cons b l2 =>
      simp only [List.map_cons, List.cons.injEq] at h
      have ha : a = b :=
        digitChar_inj_lt a (hb1 a (by simp)) b (hb2 b (by simp)) h.1
      rw [ha, ih (fun x hx => hb1 x (by simp [hx])) (fun x hx => hb2 x (by simp [hx])) h.2]

theorem natToChars_inj {a b : Nat} (h : natToChars a = natToChars b) : a = b := by
  unfold natToChars at h
  have digitsBound : ∀ m : Nat, ∀ x ∈ (natDigits m).reverse, x < 10 := by
    intro m x hx
    rw [natDigits_eq] at hx
    exact Nat.digits_lt_base (by norm_num) (List.mem_reverse.mp hx)
  by_cases ha : a = 0 <;> by_cases hb : b = 0
  · rw [ha, hb]
  · exfalso
    rw [if_pos ha, if_neg hb] at h
    have h9 : ([0] : List Nat).map Nat.digitChar = ((natDigits b).reverse).map Nat.digitChar := by
      simpa using h
    have := map_digitChar_inj (by simp) (digitsBound b) h9
    have hrev : Nat.digits 10 b = [0] := by
      have h2 := congrArg List.reverse this
      simpa [natDigits_eq] using h2.symm
    have := Nat.ofDigits_digits 10 b
    rw [hrev] at this
    simp [Nat.ofDigits] at this
    exact hb this.symm
  · exfalso
    rw [if_neg ha, if_pos hb] at h
    have h9 : ((natDigits a).reverse).map Nat.digitChar = ([0] : List Nat).map Nat.digitChar := by
      simpa using h
    have := map_digitChar_inj (digitsBound a) (by simp) h9
    have hrev : Nat.digits 10 a = [0] := by
      have h2 := congrArg List.reverse this
      simpa [natDigits_eq] using h2
    have := Nat.ofDigits_digits 10 a
    rw [hrev] at this
    simp [Nat.ofDigits] at this
    exact ha this.symm
  · rw [if_neg ha, if_neg hb] at h
    have := map_digitChar_inj (digitsBound a) (digitsBound b) h
    have h2 := congrArg List.reverse this
    simp only [List.reverse_reverse] at h2
    rw [natDigits_eq, natDigits_eq] at h2
    exact Nat.digits_inj_iff.mp h2

/-! ### Literal patterns and substring search -/

theorem RELang_strRE_iff : ∀ {s l : Str}, RELang (strRE s) l ↔ l = s := by
  intro s
  induction s with
  | nil =>
    intro l
    constructor
    · intro h
      cases h
      rfl
    · rintro rfl
      exact .eps
  | cons c s ih =>
    intro l
    constructor
    · intro h
      cases h with
      | seq h1 h2 =>
        cases h1
        rw [ih.mp h2]
        rfl
    · rintro rfl
      exact (RELang.seq (RELang.chr c) (ih.mpr rfl) : RELang (strRE (c :: s)) ([c] ++ s))

theorem isSubStr_iff {n h : Str} : isSubStr n h = true ↔ ∃ a b, h = a ++ n ++ b := by
  unfold isSubStr
  rw [research_iff]
  constructor
  · rintro ⟨a, m, b, rfl, hm⟩
    exact ⟨a, b, by rw [RELang_strRE_iff.mp hm]⟩
  · rintro ⟨a, b, rfl⟩
    exact ⟨a, n, b, rfl, RELang_strRE_iff.mpr rfl⟩

theorem cons_sublist_decomp {α : Type} {x : α} {s : List α} :
    ∀ {t : List α}, List.Sublist (x :: s) t → ∃ a b, t = a ++ x :: b ∧ List.Sublist s b := by
  intro t
  induction t with
  | nil => intro h; simp at h
  | cons y t ih =>
    intro h
    rcases List.sublist_cons_iff.mp h with h2 | ⟨r, hr, h2⟩
    · rcases ih h2 with ⟨a, b, rfl, hb⟩
      exact ⟨y :: a, b, rfl, hb⟩
    · injection hr with h3 h4
      subst h3
      subst h4
      exact ⟨[], t, rfl, h2⟩

theorem research_oneTwoThree_of_sublist {t : Str}
    (h : List.Sublist ['1', '2', '3'] t) :
    research TermOCR.oneTwoThreeRE t = true := by
  rcases cons_sublist_decomp h with ⟨a1, b1, rfl, h2⟩
  rcases cons_sublist_decomp h2 with ⟨a2, b2, rfl, h3⟩
  rcases cons_sublist_decomp h3 with ⟨a3, b3, rfl, _⟩
  apply research_iff.mpr
  refine ⟨a1, '1' :: (a2 ++ '2' :: (a3 ++ ['3'])), b3, ?_, ?_⟩
  · simp
  · have hm : RELang TermOCR.oneTwoThreeRE (['1'] ++ (a2 ++ (['2'] ++ (a3 ++ ['3'])))) :=
      .seq (.chr '1') (.seq (RELang.star_any a2) (.seq (.chr '2')
        (.seq (RELang.star_any a3) (.chr '3'))))
    simpa using hm

theorem sublist_of_research_forced {p : RE} {t : Str} {s : Str}
    (hres : research p t = true) (hf : List.Sublist s (forced p)) : List.Sublist s t := by
  rcases research_iff.mp hres with ⟨a, m, b, rfl, hm⟩
  have h1 : List.Sublist s m := hf.trans (forced_sublist hm)
  have h2 : List.Sublist m (a ++ m ++ b) := by
    rw [List.append_assoc]
    exact (List.sublist_append_left m b).trans (List.sublist_append_right a _)
  exact h1.trans h2

theorem sublist_digits_of_lower {t : Str}
    (h : List.Sublist ['1', '2', '3'] (lowerStr t)) : List.Sublist ['1', '2', '3'] t := by
  rcases List.sublist_map_iff.mp h with ⟨l0, hl0, hmap⟩
  have hlen : l0.length = 3 := by
    have := congrArg List.length hmap
    simpa using this.symm
  rcases List.length_eq_three.mp hlen with ⟨c1, c2, c3, rfl⟩
  simp only [List.map_cons, List.map_nil, List.cons.injEq, and_true] at hmap
  obtain ⟨e1, e2, e3⟩ := hmap
  have r1 : c1 = '1' := toLower_eq_low (by decide) e1.symm
  have r2 : c2 = '2' := toLower_eq_low (by decide) e2.symm
  have r3 : c3 = '3' := toLower_eq_low (by decide) e3.symm
  rw [r1, r2, r3] at hl0
  exact hl0

/-! ### Concrete trigger-pattern membership facts -/

theorem claudeRE_hyphen : RELang TermOCR.claudeRE (strC "claude-4") := by
  have hm : RELang TermOCR.claudeRE (strC "claude" ++ (['-'] ++ ['4'])) :=
    .seq (RELang_strRE_iff.mpr rfl)
      (.seq (.altl (.cls (by decide))) (.chr '4'))
  simpa using hm

theorem claudeRE_space : RELang TermOCR.claudeRE (strC "claude 4") := by
  have hm : RELang TermOCR.claudeRE (strC "claude" ++ ([' '] ++ ['4'])) :=
    .seq (RELang_strRE_iff.mpr rfl)
      (.seq (.altl (.cls (by decide))) (.chr '4'))
  simpa using hm

/-! ### Window-key lemmas -/

theorem monKey_title_inj {i : Nat} {t u : Str} (h : t ≠ u) :
    TermMon.window_key i t ≠ TermMon.window_key i u := by
  intro he
  unfold TermMon.window_key at he
  have := List.append_cancel_left he
  simp only [List.cons.injEq, true_and] at this
  exact h this

theorem ocrKey_title_inj {i n : Nat} {t u : Str} (h : t ≠ u) :
    TermOCR.window_key i t n ≠ TermOCR.window_key i u n := by
  intro he
  unfold TermOCR.window_key at he
  have h1 := List.append_cancel_left he
  simp only [List.cons.injEq, true_and] at h1
  exact h (List.append_cancel_right h1)

theorem ocrKey_len_inj {i n m : Nat} {t : Str} (h : n ≠ m) :
    TermOCR.window_key i t n ≠ TermOCR.window_key i t m := by
  intro he
  unfold TermOCR.window_key at he
  have h1 := List.append_cancel_left he
  simp only [List.cons.injEq, true_and] at h1
  have h2 := List.append_cancel_left h1
  simp only [List.cons.injEq, true_and] at h2
  exact h (natToChars_inj h2)

/-! ### Set-model lemmas -/

theorem mem_insertNat {l : List Nat} {i j : Nat} (h : i ∈ l) : i ∈ insertNat l j := by
  unfold insertNat
  split
  · exact h
  · exact List.mem_append_left _ h

theorem mem_insertStr {l : List Str} {k j : Str} (h : k ∈ l) : k ∈ insertStr l j := by
  unfold insertStr
  split
  · exact h
  · exact List.mem_append_left _ h

/-! ### Behavior of the terminal-monitor loop body -/

theorem processWindow_claude4_mono (env : Env) (st : MonState) (w : MonWindow) {i : Nat}
    (h : i ∈ st.claude4_windows) :
    i ∈ (TermMon.processWindow env st w).1.claude4_windows := by
  simp only [TermMon.processWindow]
  split_ifs <;> simp_all [mem_insertNat]

theorem processWindow_acts (env : Env) (st : MonState) (w : MonWindow) :
    (TermMon.processWindow env st w).2 = [] ∨
      (TermMon.processWindow env st w).2 = select2Actions w.index := by
  simp only [TermMon.processWindow]
  split_ifs <;> simp

theorem processWindow_suppressed (env : Env) (st : MonState) (w : MonWindow)
    (h : TermMon.window_key w.index w.title ∈ st.processed_menus) :
    (TermMon.processWindow env st w).2 = [] := by
  simp only [TermMon.processWindow]
  split_ifs <;> simp_all

theorem processWindow_flagged (env : Env) (st : MonState) (w : MonWindow)
    (hmem : w.index ∈ st.claude4_windows)
    (hmenu : TermMon.check_for_options_menu env w.index = true)
    (hkey : TermMon.window_key w.index w.title ∉ st.processed_menus) :
    (TermMon.processWindow env st w).2 = select2Actions w.index := by
  simp only [TermMon.processWindow]
  split_ifs with h1 h2 h3 <;> simp_all

theorem monFold_claude4_mono (env : Env) :
    ∀ (ws : List MonWindow) (st : MonState) (acts : List Act) {i : Nat},
      i ∈ st.claude4_windows →
      i ∈ (ws.foldl (fun (acc : MonState × List Act) w =>
        let r := TermMon.processWindow env acc.1 w
        (r.1, acc.2 ++ r.2)) (st, acts)).1.claude4_windows := by
  intro ws
  induction ws with
  | nil => intro st acts i h; simpa using h
  | cons w ws ih =>
    intro st acts i h
    simp only [List.foldl_cons]
    exact ih _ _ (processWindow_claude4_mono env st w h)

theorem monFold_acts (env : Env) :
    ∀ (ws : List MonWindow) (st : MonState) (acts : List Act) {a : Act},
      a ∈ (ws.foldl (fun (acc : MonState × List Act) w =>
        let r := TermMon.processWindow env acc.1 w
        (r.1, acc.2 ++ r.2)) (st, acts)).2 →
      a ∈ acts ∨ ∃ i, a ∈ select2Actions i := by
  intro ws
  induction ws with
  | nil => intro st acts a h; exact Or.inl (by simpa using h)
  | cons w ws ih =>
    intro st acts a h
    simp only [List.foldl_cons] at h
    rcases ih _ _ h with h2 | h2
    · rcases List.mem_append.mp h2 with h3 | h3
      · exact Or.inl h3
      · rcases processWindow_acts env st w with he | he
        · rw [he] at h3
          simp at h3
        · rw [he] at h3
          exact Or.inr ⟨w.index, h3⟩
    · exact Or.inr h2

theorem monitor_cycle_claude4_mono (env : Env) (st : MonState) {i : Nat}
    (h : i ∈ st.claude4_windows) :
    i ∈ (TermMon.monitor_terminals_cycle env st).1.claude4_windows := by
  simp only [TermMon.monitor_terminals_cycle]
  exact monFold_claude4_mono env _ st [] h

theorem monitor_cycle_prunes (env : Env) (st : MonState) {k : Str}
    (h : k ∈ (TermMon.monitor_terminals_cycle env st).1.processed_menus) :
    k ∈ (TermMon.get_cursor_windows env).map fun w => TermMon.window_key w.index w.title := by
  simp only [TermMon.monitor_terminals_cycle] at h
  have := List.mem_filter.mp h
  exact of_decide_eq_true this.2

theorem monitor_cycle_no_close (env : Env) (st : MonState) (j : Int) :
    Act.closeClick j ∉ (TermMon.monitor_terminals_cycle env st).2 := by
  intro h
  simp only [TermMon.monitor_terminals_cycle] at h
  rcases monFold_acts env _ st [] h with h2 | ⟨i, h2⟩
  · simp at h2
  · simp [select2Actions] at h2

/-! ### Behavior of the OCR loop body -/

theorem ocrStep_claude4_mono (env : Env) (st : OcrState) (w : OcrWindow) {i : Nat}
    (h : i ∈ st.claude4_windows) :
    i ∈ (TermOCR.ocrWindowStep env st w).1.claude4_windows := by
  simp only [TermOCR.ocrWindowStep]
  split_ifs <;> simp_all [mem_insertNat]

theorem ocrStep_processed_mono (env : Env) (st : OcrState) (w : OcrWindow) {k : Str}
    (h : k ∈ st.processed_selections) :
    k ∈ (TermOCR.ocrWindowStep env st w).1.processed_selections := by
  simp only [TermOCR.ocrWindowStep]
  split_ifs <;> simp_all [mem_insertStr]

theorem ocrStep_acts (env : Env) (st : OcrState) (w : OcrWindow) {a : Act}
    (h : a ∈ (TermOCR.ocrWindowStep env st w).2) :
    (∃ x y wd ht, a = .captureScreen x y wd ht) ∨ ∃ i, a ∈ select2Actions i := by
  simp only [TermOCR.ocrWindowStep] at h
  split_ifs at h <;>
  first
    | exact absurd h (List.not_mem_nil a)
    | (rcases List.mem_cons.mp h with h2 | h2 <;>
       first
         | exact Or.inl ⟨_, _, _, _, h2⟩
         | exact Or.inr ⟨w.index, h2⟩
         | exact absurd h2 (List.not_mem_nil a))

theorem ocrStep_suppressed (env : Env) (st : OcrState) (w : OcrWindow)
    (h : TermOCR.window_key w.index w.title (env.ocrText w.index).length ∈ st.processed_selections) :
    Act.keystroke (strC "2") ∉ (TermOCR.ocrWindowStep env st w).2 := by
  intro hmem
  simp only [TermOCR.ocrWindowStep] at hmem
  split_ifs at hmem with h1 h2 h3 h4 <;> simp_all [select2Actions]

theorem ocrStep_no_trigger (env : Env) (st : OcrState) (w : OcrWindow)
    (h : TermOCR.check_for_claude4 (env.ocrText w.index) = false) :
    Act.keystroke (strC "2") ∉ (TermOCR.ocrWindowStep env st w).2 := by
  intro hmem
  simp only [TermOCR.ocrWindowStep] at hmem
  split_ifs at hmem <;> simp_all [select2Actions]

theorem ocrFold_claude4_mono (env : Env) :
    ∀ (ws : List OcrWindow) (st : OcrState) (acts : List Act) {i : Nat},
      i ∈ st.claude4_windows →
      i ∈ (ws.foldl (fun (acc : OcrState × List Act) w =>
        let r := TermOCR.ocrWindowStep env acc.1 w
        (r.1, acc.2 ++ r.2)) (st, acts)).1.claude4_windows := by
  intro ws
  induction ws with
  | nil => intro st acts i h; simpa using h
  | cons w ws ih =>
    intro st acts i h
    simp only [List.foldl_cons]
    exact ih _ _ (ocrStep_claude4_mono env st w h)

theorem ocrFold_processed_mono (env : Env) :
    ∀ (ws : List OcrWindow) (st : OcrState) (acts : List Act) {k : Str},
      k ∈ st.processed_selections →
      k ∈ (ws.foldl (fun (acc : OcrState × List Act) w =>
        let r := TermOCR.ocrWindowStep env acc.1 w
        (r.1, acc.2 ++ r.2)) (st, acts)).1.processed_selections := by
  intro ws
  induction ws with
  | nil => intro st acts k h; simpa using h
  | cons w ws ih =>
    intro st acts k h
    simp only [List.foldl_cons]
    exact ih _ _ (ocrStep_processed_mono env st w h)

theorem ocrFold_acts (env : Env) :
    ∀ (ws : List OcrWindow) (st : OcrState) (acts : List Act) {a : Act},
      a ∈ (ws.foldl (fun (acc : OcrState × List Act) w =>
        let r := TermOCR.ocrWindowStep env acc.1 w
        (r.1, acc.2 ++ r.2)) (st, acts)).2 →
      a ∈ acts ∨ (∃ x y wd ht, a = .captureScreen x y wd ht) ∨ ∃ i, a ∈ select2Actions i := by
  intro ws
  induction ws with
  | nil => intro st acts a h; exact Or.inl (by simpa using h)
  | cons w ws ih =>
    intro st acts a h
    simp only [List.foldl_cons] at h
    rcases ih _ _ h with h2 | h2
    · rcases List.mem_append.mp h2 with h3 | h3
      · exact Or.inl h3
      · exact Or.inr (ocrStep_acts env st w h3)
    · exact Or.inr h2

theorem ocr_cycle_parts {env : Env} {st : OcrState} {r : OcrState × List Act}
    (hc : TermOCR.monitor_with_ocr_cycle env st = some r) :
    ∃ ws, TermOCR.get_cursor_windows env = some ws ∧
      r = ws.foldl (fun (acc : OcrState × List Act) w =>
        let s := TermOCR.ocrWindowStep env acc.1 w
        (s.1, acc.2 ++ s.2)) (st, []) := by
  simp only [TermOCR.monitor_with_ocr_cycle] at hc
  rcases Option.map_eq_some'.mp hc with ⟨ws, hws, hr⟩
  exact ⟨ws, hws, hr.symm⟩

theorem ocr_cycle_claude4_mono {env : Env} {st : OcrState} {r : OcrState × List Act}
    (hc : TermOCR.monitor_with_ocr_cycle env st = some r) {i : Nat}
    (h : i ∈ st.claude4_windows) : i ∈ r.1.claude4_windows := by
  rcases ocr_cycle_parts hc with ⟨ws, -, rfl⟩
  exact ocrFold_claude4_mono env ws st [] h

theorem ocr_cycle_processed_mono {env : Env} {st : OcrState} {r : OcrState × List Act}
    (hc : TermOCR.monitor_with_ocr_cycle env st = some r) {k : Str}
    (h : k ∈ st.processed_selections) : k ∈ r.1.processed_selections := by
  rcases ocr_cycle_parts hc with ⟨ws, -, rfl⟩
  exact ocrFold_processed_mono env ws st [] h

theorem ocr_cycle_no_close {env : Env} {st : OcrState} {r : OcrState × List Act}
    (hc : TermOCR.monitor_with_ocr_cycle env st = some r) (j : Int) :
    Act.closeClick j ∉ r.2 := by
  intro h
  rcases ocr_cycle_parts hc with ⟨ws, -, rfl⟩
  rcases ocrFold_acts env ws st [] h with h2 | ⟨x, y, wd, ht, h2⟩ | ⟨i, h2⟩
  · simp at h2
  · simp at h2
  · simp [select2Actions] at h2

/-! ### Behavior of the OCR enumerator -/

theorem buildWindow_minimized {env : Env} {i : Nat} {w : OcrWindow}
    (hb : TermOCR.buildWindow env i = some w) :
    w.minimized = decide (env.osascript (.windowMinimized i) = some (strC "true")) := by
  simp only [TermOCR.buildWindow] at hb
  split at hb
  · cases hb
    rfl
  · cases hb

theorem buildWindow_index {env : Env} {i : Nat} {w : OcrWindow}
    (hb : TermOCR.buildWindow env i = some w) : w.index = i := by
  simp only [TermOCR.buildWindow] at hb
  split at hb
  · cases hb
    rfl
  · cases hb

theorem enumStep_eq_some {env : Env} {i : Nat} {ws0 : List OcrWindow} {wi : OcrWindow}
    (hb : TermOCR.buildWindow env i = some wi) :
    TermOCR.enumStep env (some ws0) i = some (if wi.minimized then ws0 else ws0 ++ [wi]) := by
  simp [TermOCR.enumStep, hb]

theorem ocrEnumFold_none (env : Env) :
    ∀ L : List Nat, L.foldl (TermOCR.enumStep env) none = none := by
  intro L
  induction L with
  | nil => rfl
  | cons i L ih =>
    simp only [List.foldl_cons]
    have hstep : TermOCR.enumStep env none i = none := by
      simp [TermOCR.enumStep]
    rw [hstep]
    exact ih

theorem ocrEnumFold_mem (env : Env) :
    ∀ (L : List Nat) (ws0 ws : List OcrWindow),
      L.foldl (TermOCR.enumStep env) (some ws0) = some ws →
      ∀ w ∈ ws, w ∈ ws0 ∨ ∃ i ∈ L, TermOCR.buildWindow env i = some w ∧ w.minimized = false := by
  intro L
  induction L with
  | nil =>
    intro ws0 ws h w hw
    cases h
    exact Or.inl hw
  | cons i L ih =>
    intro ws0 ws h w hw
    simp only [List.foldl_cons] at h
    cases hb : TermOCR.buildWindow env i with
    | none =>
      rw [show TermOCR.enumStep env (some ws0) i = none by simp [TermOCR.enumStep, hb]] at h
      rw [ocrEnumFold_none] at h
      cases h
    | some wi =>
      rw [enumStep_eq_some hb] at h
      by_cases hmin : wi.minimized
      · rw [if_pos hmin] at h
        rcases ih _ _ h w hw with h2 | ⟨j, hj, hbj, hmj⟩
        · exact Or.inl h2
        · exact Or.inr ⟨j, by simp [hj], hbj, hmj⟩
      · rw [if_neg hmin] at h
        rcases ih _ _ h w hw with h2 | ⟨j, hj, hbj, hmj⟩
        · rcases List.mem_append.mp h2 with h3 | h3
          · exact Or.inl h3
          · have he : w = wi := List.mem_singleton.mp h3
            subst he
            exact Or.inr ⟨i, by simp, hb, Bool.eq_false_iff.mpr hmin⟩
        · exact Or.inr ⟨j, by simp [hj], hbj, hmj⟩

theorem ocrEnumFold_grow (env : Env) :
    ∀ (L : List Nat) (ws0 ws : List OcrWindow),
      L.foldl (TermOCR.enumStep env) (some ws0) = some ws →
      ∀ w ∈ ws0, w ∈ ws := by
  intro L
  induction L with
  | nil =>
    intro ws0 ws h w hw
    cases h
    exact hw
  | cons i L ih =>
    intro ws0 ws h w hw
    simp only [List.foldl_cons] at h
    cases hb : TermOCR.buildWindow env i with
    | none =>
      rw [show TermOCR.enumStep env (some ws0) i = none by simp [TermOCR.enumStep, hb]] at h
      rw [ocrEnumFold_none] at h
      cases h
    | some wi =>
      rw [enumStep_eq_some hb] at h
      by_cases hmin : wi.minimized
      · rw [if_pos hmin] at h
        exact ih _ _ h w hw
      · rw [if_neg hmin] at h
        exact ih _ _ h w (List.mem_append_left _ hw)

theorem ocrEnumFold_incl (env : Env) :
    ∀ (L : List Nat) (ws0 ws : List OcrWindow),
      L.foldl (TermOCR.enumStep env) (some ws0) = some ws →
      ∀ i ∈ L, ∀ w, TermOCR.buildWindow env i = some w → w.minimized = false → w ∈ ws := by
  intro L
  induction L with
  | nil => intro ws0 ws h i hi; simp at hi
  | cons j L ih =>
    intro ws0 ws h i hi w hb hmin
    simp only [List.foldl_cons] at h
    rcases List.mem_cons.mp hi with he | he
    · subst he
      rw [enumStep_eq_some hb, hmin] at h
      simp only [Bool.false_eq_true, if_false] at h
      exact ocrEnumFold_grow env L _ _ h w (List.mem_append_right _ (by simp))
    · cases hb2 : TermOCR.buildWindow env j with
      | none =>
        rw [show TermOCR.enumStep env (some ws0) j = none by simp [TermOCR.enumStep, hb2]] at h
        rw [ocrEnumFold_none] at h
        cases h
      | some wj =>
        rw [enumStep_eq_some hb2] at h
        by_cases hmin2 : wj.minimized
        · rw [if_pos hmin2] at h
          exact ih _ _ h i he w hb hmin
        · rw [if_neg hmin2] at h
          exact ih _ _ h i he w hb hmin

theorem ocr_windows_not_minimized {env : Env} {ws : List OcrWindow}
    (h : TermOCR.get_cursor_windows env = some ws) :
    ∀ w ∈ ws, w.minimized = false := by
  simp only [TermOCR.get_cursor_windows] at h
  split at h
  · cases h
    intro w hw
    simp at hw
  · split at h
    · cases h
      intro w hw
      simp at hw
    · split at h
      · cases h
        intro w hw
        simp at hw
      · intro w hw
        rcases ocrEnumFold_mem env _ _ _ h w hw with h2 | ⟨i, -, -, hmin⟩
        · simp at h2
        · exact hmin

theorem ocr_windows_incl {env : Env} {cnt : Str} {ws : List OcrWindow}
    (hrun : env.osascript .isRunning = some (strC "true"))
    (hcnt : env.osascript .countWindows = some cnt)
    (hdig : pyIsdigit cnt = true)
    (h : TermOCR.get_cursor_windows env = some ws) :
    ∀ i ∈ List.range' 1 (digitsToNat cnt), ∀ w,
      TermOCR.buildWindow env i = some w → w.minimized = false → w ∈ ws := by
  simp only [TermOCR.get_cursor_windows, hrun, hcnt, hdig] at h
  simp only [ne_eq, not_true_eq_false, if_false, Bool.not_true, Bool.false_eq_true] at h
  exact ocrEnumFold_incl env _ _ _ h

/-! ## Claim theorems -/

/-- C7: a window whose reported width is below 200 or whose reported height
is below 100 is skipped entirely by the OCR inspector in that cycle: the
loop body performs no capture, no OCR, no matching, and leaves the state
unchanged. -/
theorem claim_C7 (env : Env) (st : OcrState) (w : OcrWindow)
    (h : (∃ wd, w.width = some wd ∧ wd < 200) ∨ (∃ ht, w.height = some ht ∧ ht < 100)) :
    TermOCR.ocrWindowStep env st w = (st, []) := by
  have hcond : w.width.getD 0 < 200 ∨ w.height.getD 0 < 100 := by
    rcases h with ⟨wd, hw, hlt⟩ | ⟨ht, hh, hlt⟩
    · left
      rw [hw]
      simpa using hlt
    · right
      rw [hh]
      simpa using hlt
  simp only [TermOCR.ocrWindowStep, if_pos hcond]

/-- C7 witness: a 100×50 window is skipped. -/
theorem claim_C7_witness :
    TermOCR.ocrWindowStep envStopped ⟨[], []⟩
      { index := 1, title := strC "T", width := some 100, height := some 50 } =
      (⟨[], []⟩, []) :=
  claim_C7 envStopped ⟨[], []⟩ _ (Or.inl ⟨100, rfl, by decide⟩)

/-- C9: every window list returned by the OCR script's `get_cursor_windows`
contains only windows not reported minimized; a window's minimized flag is
true exactly when the query literally answered "true" (so a failed query
counts as not minimized), and any successfully built, not-reported-minimized
window of the enumerated range is included. -/
theorem claim_C9 :
    (∀ (env : Env) (ws : List OcrWindow), TermOCR.get_cursor_windows env = some ws →
      ∀ w ∈ ws, w.minimized = false) ∧
    (∀ (env : Env) (i : Nat) (w : OcrWindow), TermOCR.buildWindow env i = some w →
      (w.minimized = true ↔ env.osascript (.windowMinimized i) = some (strC "true"))) ∧
    (∀ (env : Env) (cnt : Str) (ws : List OcrWindow),
      env.osascript .isRunning = some (strC "true") →
      env.osascript .countWindows = some cnt → pyIsdigit cnt = true →
      TermOCR.get_cursor_windows env = some ws →
      ∀ i ∈ List.range' 1 (digitsToNat cnt), ∀ w, TermOCR.buildWindow env i = some w →
        env.osascript (.windowMinimized i) ≠ some (strC "true") → w ∈ ws) := by
  refine ⟨fun env ws h => ocr_windows_not_minimized h, ?_, ?_⟩
  · intro env i w hb
    rw [buildWindow_minimized hb]
    simp
  · intro env cnt ws hrun hcnt hdig h i hi w hb hq
    have hmin : w.minimized = false := by
      rw [buildWindow_minimized hb]
      simpa using hq
    exact ocr_windows_incl hrun hcnt hdig h i hi w hb hmin

/-- C9 witness: with a failing minimized query, the window is built with
`minimized = false` and is included in the returned list. -/
theorem claim_C9_witness :
    (∀ w ∈ [({ index := 1, title := strC "T", x := some 10, y := some 20,
               width := some 800, height := some 600, minimized := false } : OcrWindow)],
       w.minimized = false) ∧
    (({ index := 1, title := strC "T", x := some 10, y := some 20,
        width := some 800, height := some 600, minimized := false } : OcrWindow).minimized = true ↔
      envMinFail.osascript (.windowMinimized 1) = some (strC "true")) ∧
    ({ index := 1, title := strC "T", x := some 10, y := some 20,
       width := some 800, height := some 600, minimized := false } : OcrWindow) ∈
      [({ index := 1, title := strC "T", x := some 10, y := some 20,
          width := some 800, height := some 600, minimized := false } : OcrWindow)] :=
  ⟨claim_C9.1 envMinFail _ (by decide),
   claim_C9.2.1 envMinFail 1 _ (by decide),
   claim_C9.2.2 envMinFail (strC "1") _ (by decide) (by decide) (by decide) (by decide)
     1 (by decide) _ (by decide) (by decide)⟩

/-- C1 (amended): in both scripts a window key already in the SeenSet is
never autoresponded again, so re-observing the same window with the same
menu content cannot re-trigger; eligibility returns exactly when the key
changes, that is when the title changes (accessibility monitor) or when the
title or the recognized-text length changes (OCR script) — a content change
leaving the key components unchanged does not restore eligibility. -/
theorem claim_C1 :
    (∀ (env : Env) (st : MonState) (w : MonWindow),
      TermMon.window_key w.index w.title ∈ st.processed_menus →
      (TermMon.processWindow env st w).2 = []) ∧
    (∀ (env : Env) (st : OcrState) (w : OcrWindow),
      TermOCR.window_key w.index w.title (env.ocrText w.index).length ∈ st.processed_selections →
      Act.keystroke (strC "2") ∉ (TermOCR.ocrWindowStep env st w).2) ∧
    (∀ (i : Nat) (t u : Str), t ≠ u → TermMon.window_key i t ≠ TermMon.window_key i u) ∧
    (∀ (i n : Nat) (t u : Str), t ≠ u → TermOCR.window_key i t n ≠ TermOCR.window_key i u n) ∧
    (∀ (i n m : Nat) (t : Str), n ≠ m → TermOCR.window_key i t n ≠ TermOCR.window_key i t m) :=
  ⟨fun env st w h => processWindow_suppressed env st w h,
   fun env st w h => ocrStep_suppressed env st w h,
   fun _ _ _ h => monKey_title_inj h,
   fun _ _ _ _ h => ocrKey_title_inj h,
   fun _ _ _ _ h => ocrKey_len_inj h⟩

/-- C1 counterexample to the claim as stated: the accessibility monitor's
key ignores the window content, so after one autoresponse the same window
with changed content (still showing the trigger and a menu) is not eligible
again. -/
theorem claim_C1_counterexample :
    TermMon.get_window_ui_elements envMenu1 1 ≠ TermMon.get_window_ui_elements envMenu2 1 ∧
    (TermMon.processWindow envMenu1 ⟨[], []⟩ ⟨1, strC "T"⟩ =
      (⟨[1], [TermMon.window_key 1 (strC "T")]⟩, select2Actions 1)) ∧
    TermMon.check_for_claude4 envMenu2 1 = true ∧
    TermMon.check_for_options_menu envMenu2 1 = true ∧
    (TermMon.processWindow envMenu2 ⟨[1], [TermMon.window_key 1 (strC "T")]⟩ ⟨1, strC "T"⟩ =
      (⟨[1], [TermMon.window_key 1 (strC "T")]⟩, [])) := by
  decide

/-- C1 witness: concrete instances of the amended statement. -/
theorem claim_C1_witness :
    (TermMon.processWindow envMenu2 ⟨[], [TermMon.window_key 1 (strC "T")]⟩ ⟨1, strC "T"⟩).2 = [] ∧
    Act.keystroke (strC "2") ∉
      (TermOCR.ocrWindowStep envMenu2
        ⟨[], [TermOCR.window_key 1 (strC "T") 24]⟩
        { index := 1, title := strC "T", width := some 800, height := some 600 }).2 ∧
    TermMon.window_key 1 (strC "T") ≠ TermMon.window_key 1 (strC "U") ∧
    TermOCR.window_key 1 (strC "T") 3 ≠ TermOCR.window_key 1 (strC "U") 3 ∧
    TermOCR.window_key 1 (strC "T") 3 ≠ TermOCR.window_key 1 (strC "T") 4 :=
  ⟨claim_C1.1 envMenu2 _ _ (by decide),
   claim_C1.2.1 envMenu2 _ _ (by decide),
   claim_C1.2.2.1 1 _ _ (by decide),
   claim_C1.2.2.2.1 1 3 _ _ (by decide),
   claim_C1.2.2.2.2 1 3 4 _ (by decide)⟩

/-- C2 (amended): the accessibility monitor prunes its SeenSet each cycle to
the keys of the currently enumerated windows; the OCR script never prunes —
its SeenSet only ever grows across cycles. -/
theorem claim_C2 :
    (∀ (env : Env) (st : MonState) (k : Str),
      k ∈ (TermMon.monitor_terminals_cycle env st).1.processed_menus →
      k ∈ (TermMon.get_cursor_windows env).map fun w => TermMon.window_key w.index w.title) ∧
    (∀ (env : Env) (st : OcrState) (r : OcrState × List Act) (k : Str),
      TermOCR.monitor_with_ocr_cycle env st = some r →
      k ∈ st.processed_selections → k ∈ r.1.processed_selections) :=
  ⟨fun env st _ h => monitor_cycle_prunes env st h,
   fun _ _ _ _ hc h => ocr_cycle_processed_mono hc h⟩

/-- C2 counterexample to the claim as stated: the OCR script's cycle keeps a
stale key even when the current window list is empty. -/
theorem claim_C2_counterexample :
    TermOCR.get_cursor_windows envStopped = some [] ∧
    TermOCR.monitor_with_ocr_cycle envStopped ⟨[], [strC "stale"]⟩ =
      some (⟨[], [strC "stale"]⟩, []) := by
  decide

/-- C2 witness: concrete instances of the amended statement. -/
theorem claim_C2_witness :
    TermMon.window_key 1 (strC "T") ∈
      ((TermMon.get_cursor_windows envMenu1).map fun w => TermMon.window_key w.index w.title) ∧
    strC "stale" ∈
      (⟨[], [strC "stale"]⟩ : OcrState).processed_selections :=
  ⟨claim_C2.1 envMenu1 ⟨[], [TermMon.window_key 1 (strC "T")]⟩ _ (by decide),
   claim_C2.2 envStopped ⟨[], [strC "stale"]⟩ (⟨[], [strC "stale"]⟩, []) _ (by decide) (by decide)⟩

/-- C10 (amended): in both scripts the trigger-flag set is keyed by window
index alone and only ever grows during a run.  In the accessibility monitor
a flagged index stays eligible for menu autoresponse even when the trigger
content is gone; in the OCR script the menu check runs only when the
current OCR text still matches the trigger, so no keystroke is sent for a
flagged index whose trigger content is gone. -/
theorem claim_C10 :
    (∀ (env : Env) (st : MonState) (i : Nat), i ∈ st.claude4_windows →
      i ∈ (TermMon.monitor_terminals_cycle env st).1.claude4_windows) ∧
    (∀ (env : Env) (st : OcrState) (r : OcrState × List Act),
      TermOCR.monitor_with_ocr_cycle env st = some r →
      ∀ i ∈ st.claude4_windows, i ∈ r.1.claude4_windows) ∧
    (∀ (env : Env) (st : MonState) (w : MonWindow),
      w.index ∈ st.claude4_windows →
      TermMon.check_for_options_menu env w.index = true →
      TermMon.window_key w.index w.title ∉ st.processed_menus →
      (TermMon.processWindow env st w).2 = select2Actions w.index) ∧
    (∀ (env : Env) (st : OcrState) (w : OcrWindow),
      TermOCR.check_for_claude4 (env.ocrText w.index) = false →
      Act.keystroke (strC "2") ∉ (TermOCR.ocrWindowStep env st w).2) :=
  ⟨fun env st _ h => monitor_cycle_claude4_mono env st h,
   fun _ _ _ hc _ h => ocr_cycle_claude4_mono hc h,
   fun env st w h1 h2 h3 => processWindow_flagged env st w h1 h2 h3,
   fun env st w h => ocrStep_no_trigger env st w h⟩

/-- C10 counterexample to the claim as stated: in the OCR script a window
whose index is flagged but whose current text shows a menu without the
trigger phrase receives no autoresponse. -/
theorem claim_C10_counterexample :
    TermOCR.check_for_options_menu (strC "please select:\n1\n2\n3") = true ∧
    TermOCR.check_for_claude4 (strC "please select:\n1\n2\n3") = false ∧
    TermOCR.ocrWindowStep envOcrMenuNoTrig ⟨[1], []⟩
      { index := 1, title := strC "T", width := some 800, height := some 600 } =
      (⟨[1], []⟩, [Act.captureScreen 0 0 800 600]) := by
  decide

/-- C10 witness: concrete instances of the amended statement. -/
theorem claim_C10_witness :
    1 ∈ (TermMon.monitor_terminals_cycle envMenu1 ⟨[1], []⟩).1.claude4_windows ∧
    (TermMon.processWindow envMonNoTrig ⟨[1], []⟩ ⟨1, strC "T"⟩).2 = select2Actions 1 ∧
    Act.keystroke (strC "2") ∉
      (TermOCR.ocrWindowStep envOcrMenuNoTrig ⟨[1], []⟩
        { index := 1, title := strC "T", width := some 800, height := some 600 }).2 :=
  ⟨claim_C10.1 envMenu1 ⟨[1], []⟩ 1 (by decide),
   claim_C10.2.2.1 envMonNoTrig ⟨[1], []⟩ ⟨1, strC "T"⟩ (by decide) (by decide) (by decide),
   claim_C10.2.2.2 envOcrMenuNoTrig ⟨[1], []⟩ _ (by decide)⟩

/-- C3 (amended): the GUI close path issues the close command only when the
confirmation dialog was shown and answered yes; the autonomous monitor
cycles never issue a close; but the CLI close path (see the counterexample)
issues it without any confirmation. -/
theorem claim_C3 :
    (∀ (sel : Option Nat) (answer : Bool) (i : Int),
      Act.closeClick i ∈ Gui.close_window sel answer →
      answer = true ∧ Act.askConfirm i.toNat ∈ Gui.close_window sel answer) ∧
    (∀ (env : Env) (st : MonState) (j : Int),
      Act.closeClick j ∉ (TermMon.monitor_terminals_cycle env st).2) ∧
    (∀ (env : Env) (st : OcrState) (r : OcrState × List Act) (j : Int),
      TermOCR.monitor_with_ocr_cycle env st = some r → Act.closeClick j ∉ r.2) := by
  refine ⟨?_, fun env st j => monitor_cycle_no_close env st j,
          fun _ _ _ j hc => ocr_cycle_no_close hc j⟩
  intro sel answer i h
  match sel with
  | none => simp [Gui.close_window] at h
  | some n =>
    by_cases hn : n ≠ 0
    · cases answer
      · simp [Gui.close_window, hn] at h
      · simp only [Gui.close_window, if_pos hn, if_true] at h ⊢
        have h2 : i = (n : Int) := by
          simp only [List.mem_cons, List.not_mem_nil, or_false] at h
          rcases h with h | h
          · exact absurd h (by simp)
          · simpa using h
        subst h2
        refine ⟨trivial, ?_⟩
        simp
    · simp [Gui.close_window, hn] at h

/-- C3 counterexample to the claim as stated: the CLI close command issues
the close click immediately, with no confirmation step. -/
theorem claim_C3_counterexample :
    WinMon.main [strC "cursor-window-monitor.py", strC "close", strC "1"] =
      .ok [Act.closeClick 1] ∧
    Act.askConfirm 1 ∉ [Act.closeClick 1] := by
  decide

/-- C3 witness: concrete instances of the amended statement. -/
theorem claim_C3_witness :
    (true = true ∧ Act.askConfirm (1 : Int).toNat ∈ Gui.close_window (some 1) true) ∧
    Act.closeClick 1 ∉ (TermMon.monitor_terminals_cycle envMenu1 ⟨[], []⟩).2 ∧
    Act.closeClick 1 ∉ ((⟨[], []⟩, ([] : List Act)) : OcrState × List Act).2 :=
  ⟨claim_C3.1 (some 1) true 1 (by decide),
   claim_C3.2.1 envMenu1 ⟨[], []⟩ 1,
   claim_C3.2.2 envStopped ⟨[], []⟩ (⟨[], []⟩, []) 1 (by decide)⟩

/-- C6: in both inspector variants the trigger matcher is case-insensitive
(it depends only on the lowercased text) and accepts both the hyphenated
and the spaced form of the model name, in any casing and any context. -/
theorem claim_C6 :
    (∀ t u : Str, lowerStr t = lowerStr u →
      TermMon.text_matches_claude4 t = TermMon.text_matches_claude4 u) ∧
    (∀ t u : Str, lowerStr t = lowerStr u →
      TermOCR.check_for_claude4 t = TermOCR.check_for_claude4 u) ∧
    (∀ a m b : Str, lowerStr m = strC "claude-4" →
      TermMon.text_matches_claude4 (a ++ m ++ b) = true) ∧
    (∀ a m b : Str, lowerStr m = strC "claude 4" →
      TermMon.text_matches_claude4 (a ++ m ++ b) = true) ∧
    (∀ a m b : Str, lowerStr m = strC "claude-4" →
      TermOCR.check_for_claude4 (a ++ m ++ b) = true) ∧
    (∀ a m b : Str, lowerStr m = strC "claude 4" →
      TermOCR.check_for_claude4 (a ++ m ++ b) = true) := by
  refine ⟨?_, ?_, ?_, ?_, ?_, ?_⟩
  · intro t u h
    simp only [TermMon.text_matches_claude4, h]
  · intro t u h
    simp only [TermOCR.check_for_claude4, h]
  · intro a m b hm
    apply List.any_eq_true.mpr
    refine ⟨strC "claude-4", by simp [TermMon.claude4_patterns], ?_⟩
    show isSubStr (lowerStr (strC "claude-4")) (lowerStr (a ++ m ++ b)) = true
    rw [show lowerStr (strC "claude-4") = strC "claude-4" by decide]
    apply isSubStr_iff.mpr
    exact ⟨lowerStr a, lowerStr b, by rw [lowerStr_append, lowerStr_append, hm]⟩
  · intro a m b hm
    apply List.any_eq_true.mpr
    refine ⟨strC "Claude 4", by simp [TermMon.claude4_patterns], ?_⟩
    show isSubStr (lowerStr (strC "Claude 4")) (lowerStr (a ++ m ++ b)) = true
    rw [show lowerStr (strC "Claude 4") = strC "claude 4" by decide]
    apply isSubStr_iff.mpr
    exact ⟨lowerStr a, lowerStr b, by rw [lowerStr_append, lowerStr_append, hm]⟩
  · intro a m b hm
    apply List.any_eq_true.mpr
    refine ⟨TermOCR.claudeRE, by simp [TermOCR.claude4_patterns], ?_⟩
    apply research_iff.mpr
    refine ⟨lowerStr a, lowerStr m, lowerStr b, ?_, ?_⟩
    · rw [lowerStr_append, lowerStr_append]
    · rw [hm]
      exact claudeRE_hyphen
  · intro a m b hm
    apply List.any_eq_true.mpr
    refine ⟨TermOCR.claudeRE, by simp [TermOCR.claude4_patterns], ?_⟩
    apply research_iff.mpr
    refine ⟨lowerStr a, lowerStr m, lowerStr b, ?_, ?_⟩
    · rw [lowerStr_append, lowerStr_append]
    · rw [hm]
      exact claudeRE_space

/-- C6 witness: concrete instances, including mixed casing. -/
theorem claim_C6_witness :
    TermMon.text_matches_claude4 (strC "x ClAuDe-4 y") = true ∧
    TermMon.text_matches_claude4 (strC "x CLAUDE 4 y") = true ∧
    TermOCR.check_for_claude4 (strC "x ClAuDe-4 y") = true ∧
    TermOCR.check_for_claude4 (strC "x CLAUDE 4 y") = true :=
  ⟨claim_C6.2.2.1 (strC "x ") (strC "ClAuDe-4") (strC " y") (by decide),
   claim_C6.2.2.2.1 (strC "x ") (strC "CLAUDE 4") (strC " y") (by decide),
   claim_C6.2.2.2.2.1 (strC "x ") (strC "ClAuDe-4") (strC " y") (by decide),
   claim_C6.2.2.2.2.2 (strC "x ") (strC "CLAUDE 4") (strC " y") (by decide)⟩

/-- C4 (amended): the GUI move and resize paths catch non-numeric input
locally and surface an error dialog; the CLI move and resize paths do not
catch it — `int()` raises an uncaught `ValueError` that escapes `main`. -/
theorem claim_C4 :
    (∀ (i : Nat) (x y : Str), i ≠ 0 → pyInt x = none ∨ pyInt y = none →
      Gui.move_window (some i) x y = [Act.showDialog (strC "Invalid Input")]) ∧
    (∀ (i : Nat) (x y : Str), i ≠ 0 → pyInt x = none ∨ pyInt y = none →
      Gui.resize_window (some i) x y = [Act.showDialog (strC "Invalid Input")]) ∧
    (∀ p a x y : Str, pyInt a = none ∨ pyInt x = none ∨ pyInt y = none →
      WinMon.main [p, strC "move", a, x, y] = .error (strC "ValueError")) ∧
    (∀ p a x y : Str, pyInt a = none ∨ pyInt x = none ∨ pyInt y = none →
      WinMon.main [p, strC "resize", a, x, y] = .error (strC "ValueError")) := by
  refine ⟨?_, ?_, ?_, ?_⟩
  · intro i x y hi h
    simp only [Gui.move_window, if_pos hi]
    cases hx : pyInt x <;> cases hy : pyInt y <;> simp_all
  · intro i x y hi h
    simp only [Gui.resize_window, if_pos hi]
    cases hx : pyInt x <;> cases hy : pyInt y <;> simp_all
  · intro p a x y h
    show WinMon.main [p, strC "move", a, x, y] = .error (strC "ValueError")
    have hcmd : lowerStr ([p, strC "move", a, x, y].getD 1 []) = strC "move" := by rfl
    simp only [WinMon.main, hcmd, List.length_cons, List.length_nil]
    norm_num
    cases ha : pyInt a <;> cases hx : pyInt x <;> cases hy : pyInt y <;> simp_all +decide
  · intro p a x y h
    show WinMon.main [p, strC "resize", a, x, y] = .error (strC "ValueError")
    have hcmd : lowerStr ([p, strC "resize", a, x, y].getD 1 []) = strC "resize" := by rfl
    simp only [WinMon.main, hcmd, List.length_cons, List.length_nil]
    norm_num
    cases ha : pyInt a <;> cases hx : pyInt x <;> cases hy : pyInt y <;> simp_all +decide

/-- C4 counterexample to the claim as stated: a non-numeric CLI coordinate
makes `main` raise an uncaught `ValueError`. -/
theorem claim_C4_counterexample :
    WinMon.main [strC "cursor-window-monitor.py", strC "move", strC "1", strC "abc", strC "20"] =
      .error (strC "ValueError") := by
  decide

/-- C4 witness: concrete instances of the amended statement. -/
theorem claim_C4_witness :
    Gui.move_window (some 1) (strC "abc") (strC "20") = [Act.showDialog (strC "Invalid Input")] ∧
    Gui.resize_window (some 1) (strC "300") (strC "h?") = [Act.showDialog (strC "Invalid Input")] ∧
    WinMon.main [strC "p", strC "move", strC "1", strC "abc", strC "20"] =
      .error (strC "ValueError") ∧
    WinMon.main [strC "p", strC "resize", strC "1", strC "300", strC "h?"] =
      .error (strC "ValueError") :=
  ⟨claim_C4.1 1 _ _ (by decide) (Or.inl (by decide)),
   claim_C4.2.1 1 _ _ (by decide) (Or.inr (by decide)),
   claim_C4.2.2.1 _ _ _ _ (Or.inr (Or.inl (by decide))),
   claim_C4.2.2.2 _ _ _ _ (Or.inr (Or.inr (by decide)))⟩

/-- C5 (amended): the OCR variant's menu detector satisfies both halves of
the stated property — any text containing the characters "1", "2" and "3"
together with the word "select" is classified as a menu, and a text with no
"3" never is.  The accessibility variant's detector satisfies the negative
half, but classifies only its specific regex shapes: "select:" followed by
the numbered lines is a menu, while the same lines with "select" and no
colon are not (see the counterexample). -/
theorem claim_C5 :
    (∀ t : Str, '1' ∈ t → '2' ∈ t → '3' ∈ t →
      isSubStr (strC "select") (lowerStr t) = true →
      TermOCR.check_for_options_menu t = true) ∧
    (∀ t : Str, '3' ∉ t → TermOCR.check_for_options_menu t = false) ∧
    (∀ t : Str, '3' ∉ t → TermMon.text_matches_options_menu t = false) ∧
    TermMon.text_matches_options_menu (strC "select:\n1\n2\n3") = true := by
  refine ⟨?_, ?_, ?_, by decide⟩
  · intro t h1 h2 h3 hsel
    obtain ⟨l1, hl1, hc1⟩ := mem_splitLines_of_mem h1 (by decide)
    obtain ⟨l2, hl2, hc2⟩ := mem_splitLines_of_mem h2 (by decide)
    obtain ⟨l3, hl3, hc3⟩ := mem_splitLines_of_mem h3 (by decide)
    have hA : (splitLines t).any (fun l => decide ('1' ∈ l)) = true :=
      List.any_eq_true.mpr ⟨l1, hl1, decide_eq_true hc1⟩
    have hB : (splitLines t).any (fun l => decide ('2' ∈ l)) = true :=
      List.any_eq_true.mpr ⟨l2, hl2, decide_eq_true hc2⟩
    have hC : (splitLines t).any (fun l => decide ('3' ∈ l)) = true :=
      List.any_eq_true.mpr ⟨l3, hl3, decide_eq_true hc3⟩
    have hAny : TermOCR.menu_patterns.any (fun p => research p (lowerStr t)) = true :=
      List.any_eq_true.mpr ⟨strRE (strC "select"), by simp [TermOCR.menu_patterns], hsel⟩
    simp only [TermOCR.check_for_options_menu, hA, hB, hC, hAny, Bool.and_self, if_true]
  · intro t h3
    have hC : (splitLines t).any (fun l => decide ('3' ∈ l)) = false := by
      cases hA : (splitLines t).any (fun l => decide ('3' ∈ l))
      · rfl
      · exfalso
        rcases List.any_eq_true.mp hA with ⟨l, hl, hcl⟩
        exact h3 (mem_of_mem_splitLines hl (of_decide_eq_true hcl))
    simp only [TermOCR.check_for_options_menu, hC, Bool.and_false, Bool.false_eq_true, if_false]
  · intro t h3
    apply Bool.eq_false_iff.mpr
    intro hA
    rcases List.any_eq_true.mp hA with ⟨p, hp, hres⟩
    have hlow : '3' ∉ lowerStr t := notMem_lowerStr (by decide) h3
    have hmc : mustContain '3' p = true := by
      simp only [TermMon.option_patterns, List.mem_cons, List.not_mem_nil, or_false] at hp
      rcases hp with rfl | rfl | rfl | rfl <;> decide
    rw [research_eq_false_of_notMem hmc hlow] at hres
    cases hres

/-- C5 counterexample to the claim as stated: the text
"select\n1\n2\n3" has lines "1", "2", "3" in order together with the word
"select", yet the accessibility variant's detector does not classify it as a
menu (its patterns need a colon, numbering punctuation, brackets, or the
word "Option"); the OCR variant does. -/
theorem claim_C5_counterexample :
    TermMon.text_matches_options_menu (strC "select\n1\n2\n3") = false ∧
    TermOCR.check_for_options_menu (strC "select\n1\n2\n3") = true := by
  decide

/-- C5 witness: concrete instances of the amended statement. -/
theorem claim_C5_witness :
    TermOCR.check_for_options_menu (strC "select a model\n1 a\n2 b\n3 c") = true ∧
    TermOCR.check_for_options_menu (strC "only 1 and 2, select") = false ∧
    TermMon.text_matches_options_menu (strC "only 1 and 2, select") = false :=
  ⟨claim_C5.1 (strC "select a model\n1 a\n2 b\n3 c")
      (by decide) (by decide) (by decide) (by decide),
   claim_C5.2.1 (strC "only 1 and 2, select") (by decide),
   claim_C5.2.2.1 (strC "only 1 and 2, select") (by decide)⟩

/-- C8 (amended): the two variants' matchers are not identical; every text
the accessibility-tree matchers accept is accepted by the OCR matchers, but
not conversely (the OCR trigger matcher also accepts e.g. "opus 4", and the
OCR menu matcher accepts keyword menus the accessibility regexes reject). -/
theorem claim_C8 :
    (∀ t : Str, TermMon.text_matches_claude4 t = true →
      TermOCR.check_for_claude4 t = true) ∧
    (∀ t : Str, TermMon.text_matches_options_menu t = true →
      TermOCR.check_for_options_menu t = true) := by
  constructor
  · intro t h
    rcases List.any_eq_true.mp h with ⟨p, hp, hsub⟩
    simp only [TermMon.claude4_patterns, List.mem_cons, List.not_mem_nil, or_false] at hp
    have hlow : lowerStr p = strC "claude-4" ∨ lowerStr p = strC "claude 4" := by
      rcases hp with rfl | rfl | rfl | rfl | rfl
      · exact Or.inl (by decide)
      · exact Or.inr (by decide)
      · exact Or.inr (by decide)
      · exact Or.inl (by decide)
      · exact Or.inl (by decide)
    have hsub2 : isSubStr (lowerStr p) (lowerStr t) = true := hsub
    rcases isSubStr_iff.mp hsub2 with ⟨a, b, heq⟩
    apply List.any_eq_true.mpr
    refine ⟨TermOCR.claudeRE, by simp [TermOCR.claude4_patterns], ?_⟩
    apply research_iff.mpr
    refine ⟨a, lowerStr p, b, heq, ?_⟩
    rcases hlow with h4 | h4 <;> rw [h4]
    · exact claudeRE_hyphen
    · exact claudeRE_space
  · intro t h
    rcases List.any_eq_true.mp h with ⟨p, hp, hres⟩
    have hforced : List.Sublist ['1', '2', '3'] (forced p) := by
      simp only [TermMon.option_patterns, List.mem_cons, List.not_mem_nil, or_false] at hp
      rcases hp with rfl | rfl | rfl | rfl <;> decide
    have hsubLow : List.Sublist ['1', '2', '3'] (lowerStr t) :=
      sublist_of_research_forced hres hforced
    have hsub : List.Sublist ['1', '2', '3'] t := sublist_digits_of_lower hsubLow
    have h1 : '1' ∈ t := hsub.subset (by simp)
    have h2 : '2' ∈ t := hsub.subset (by simp)
    have h3 : '3' ∈ t := hsub.subset (by simp)
    obtain ⟨l1, hl1, hc1⟩ := mem_splitLines_of_mem h1 (by decide)
    obtain ⟨l2, hl2, hc2⟩ := mem_splitLines_of_mem h2 (by decide)
    obtain ⟨l3, hl3, hc3⟩ := mem_splitLines_of_mem h3 (by decide)
    have hA : (splitLines t).any (fun l => decide ('1' ∈ l)) = true :=
      List.any_eq_true.mpr ⟨l1, hl1, decide_eq_true hc1⟩
    have hB : (splitLines t).any (fun l => decide ('2' ∈ l)) = true :=
      List.any_eq_true.mpr ⟨l2, hl2, decide_eq_true hc2⟩
    have hC : (splitLines t).any (fun l => decide ('3' ∈ l)) = true :=
      List.any_eq_true.mpr ⟨l3, hl3, decide_eq_true hc3⟩
    have h123 : research TermOCR.oneTwoThreeRE t = true :=
      research_oneTwoThree_of_sublist hsub
    simp only [TermOCR.check_for_options_menu, hA, hB, hC, Bool.and_self, if_true]
    cases hAny : TermOCR.menu_patterns.any (fun p => research p (lowerStr t)) <;>
      simp [hAny, h123]

/-- C8 counterexample to the claim as stated: the two variants do not
classify identically — "opus 4" triggers only the OCR matcher, and
"choose:" followed by the numbered lines is a menu only for the OCR
matcher. -/
theorem claim_C8_counterexample :
    TermOCR.check_for_claude4 (strC "opus 4") = true ∧
    TermMon.text_matches_claude4 (strC "opus 4") = false ∧
    TermOCR.check_for_options_menu (strC "choose:\n1\n2\n3") = true ∧
    TermMon.text_matches_options_menu (strC "choose:\n1\n2\n3") = false := by
  decide

/-- C8 witness: concrete instances of the inclusion. -/
theorem claim_C8_witness :
    TermOCR.check_for_claude4 (strC "x claude-4 y") = true ∧
    TermOCR.check_for_options_menu (strC "select:\n1\n2\n3") = true :=
  ⟨claim_C8.1 (strC "x claude-4 y") (by decide),
   claim_C8.2 (strC "select:\n1\n2\n3") (by decide)⟩
